import Mathlib

/-!
Verification development for the scan-orchestration core of the
`automaton-sec` repository (Go).  The definitions below are a shallow
embedding of the Go source:

* `internal/domain/scans/entity.go`      — `Scan`, `Tool`, `Status`, `SeverityCounts`
* `internal/domain/scans/analyst.go`     — `ParseSeverityCounts` and the five
  per-format parsers
* `internal/infra/executor/docker/runner.go` — `Runner.Run`
* `internal/infra/db/mysql/scan_repo.go` — `Save`, `UpdateStatus`, `Get`
* the scan application service (`TriggerScan`, `RetryScan`, `statusFromExit`)

Modelling conventions: Go `string` is Lean `String`; Go `int`/`int64` counters
that can only grow from zero are `Nat`, exit codes are `Int` (ExitCode() may be
negative); file I/O and subprocess execution are supplied by explicit
environment records; JSON documents are values of an inductive `Json` type and
`encoding/json.Unmarshal` into the concrete Go target types is modelled by
decode functions that return `none` exactly when Unmarshal reports an error.
-/

namespace AutomatonSec

/-- Tool is an open string-keyed type in the source (`type Tool string`). -/
abbrev Tool := String

/-- ToolSQLMap mirrors the constant in entity.go. -/
def ToolSQLMap : Tool := "sqlmap"

/-- ToolTrivy mirrors the constant in entity.go. -/
def ToolTrivy : Tool := "trivy"

/-- ToolGitleaks mirrors the constant in entity.go. -/
def ToolGitleaks : Tool := "gitleaks"

/-- ToolZAP mirrors the constant in entity.go. -/
def ToolZAP : Tool := "zap"

/-- ToolNuclei mirrors the constant in entity.go. -/
def ToolNuclei : Tool := "nuclei"

/-- Status is an open string-keyed type in the source (`type Status string`). -/
abbrev Status := String

/-- StatusSuccess mirrors the constant in entity.go. -/
def StatusSuccess : Status := "success"

/-- StatusFailed mirrors the constant in entity.go. -/
def StatusFailed : Status := "failed"

/-- Modelled from the spec: the service code refers to `domain.StatusError`,
whose declaration is not among the provided source files; the spec's status
set is {Running, Success, Failed, Error} and the other constants are the
lower-case status words, so the error status is the string "error". -/
def StatusError : Status := "error"

/-- StatusRunning: the service writes the literal string "running"
(`domain.Status("running")`). -/
def StatusRunning : Status := "running"

/-- SeverityCounts mirrors the value object in entity.go.  The Go fields are
`int`s that are only ever incremented starting from the zero value, so they
are modelled as `Nat`. -/
structure SeverityCounts where
  critical : Nat := 0
  high : Nat := 0
  medium : Nat := 0
  low : Nat := 0
  total : Nat := 0
deriving DecidableEq, Repr

/-- Bucketwise sum of two `SeverityCounts`; used to state accumulation lemmas
about the counting folds. -/
def addCounts (a b : SeverityCounts) : SeverityCounts :=
  ⟨a.critical + b.critical, a.high + b.high, a.medium + b.medium,
   a.low + b.low, a.total + b.total⟩

/-!  JSON documents (the image of `encoding/json` decoding into `any`):
null, booleans, numbers, strings, arrays, and objects.  Object fields are kept
as an association list; Go's decoder lets a later duplicate key overwrite an
earlier one, so lookup is last-wins. -/

/-- Json models a decoded JSON document. -/
inductive Json where
  | null
  | bool (b : Bool)
  | num (n : Int)
  | str (s : String)
  | arr (elems : List Json)
  | obj (fields : List (String × Json))
deriving Repr

/-- Lookup of a key in a JSON object, last occurrence wins (Go map semantics
after decoding, where later duplicate keys overwrite earlier ones). -/
def getField (kvs : List (String × Json)) (k : String) : Option Json :=
  kvs.foldl (fun acc kv => if kv.1 = k then some kv.2 else acc) none

/-- ASCII lower-casing of one character (the fragment of Go's
`strings.ToLower` exercised by this code, whose inputs are ASCII). -/
def lowerChar (c : Char) : Char :=
  if 65 ≤ c.toNat ∧ c.toNat ≤ 90 then Char.ofNat (c.toNat + 32) else c

/-- ASCII `strings.ToLower`. -/
def lowerStr (s : String) : String :=
  String.mk (s.toList.map lowerChar)

/-- Go `json.Unmarshal` of a JSON value into a `string` field: a JSON string
yields the string, JSON null leaves the zero value "" in place, anything else
is an unmarshal error. -/
def goStr : Json → Option String
  | .str s => some s
  | .null => some ""
  | _ => none

/-!  parseNucleiJSONL (analyst.go): the artifact is scanned line by line;
blank lines are skipped, lines that fail `json.Unmarshal` are skipped, and
for each decoded line the nested `info.severity` string is bucketed.  A line
of the file is modelled by what the scanner sees: blank (trims to empty),
invalid (non-empty but not valid JSON), or a JSON value. -/

/-- RawLine models one line of a line-delimited artifact as the Go code
observes it. -/
inductive RawLine where
  | blank
  | invalid
  | value (j : Json)
deriving Repr

/-- Go decoding of one nuclei line into
`struct { Info struct { Severity string } }`: the document must be a JSON
object (or null); the `info` field, when present, must itself be an object
(or null); the `severity` field, when present, must be a string (or null).
Any type mismatch is an unmarshal error (`none`), which the caller skips. -/
def decodeNucleiSeverity : Json → Option String
  | .null => some ""
  | .obj kvs =>
    match getField kvs "info" with
    | none => some ""
    | some Json.null => some ""
    | some (Json.obj kvs2) =>
      (match getField kvs2 "severity" with
       | none => some ""
       | some v => goStr v)
    | some _ => none
  | _ => none

/-- One step of the nuclei line loop: skip blank and undecodable lines;
otherwise bucket the lower-cased severity (`info`/`informational` fold into
low, unknown values hit no bucket) and always increment the total. -/
def nucleiStep (c : SeverityCounts) (l : RawLine) : SeverityCounts :=
  match l with
  | .blank => c
  | .invalid => c
  | .value j =>
    match decodeNucleiSeverity j with
    | none => c
    | some sevRaw =>
      let sev := lowerStr sevRaw
      let c :=
        if sev = "critical" then { c with critical := c.critical + 1 }
        else if sev = "high" then { c with high := c.high + 1 }
        else if sev = "medium" then { c with medium := c.medium + 1 }
        else if sev = "low" then { c with low := c.low + 1 }
        else if sev = "info" ∨ sev = "informational" then { c with low := c.low + 1 }
        else c
      { c with total := c.total + 1 }

/-- Counting loop of `parseNucleiJSONL` over the lines of the artifact. -/
def nucleiCounts (ls : List RawLine) : SeverityCounts :=
  ls.foldl nucleiStep {}

/-!  parseTrivySARIF (analyst.go): the whole file is decoded into
`struct { Runs []struct { Results []struct { Level string; Properties map[string]any } } }`
and every result is bucketed. -/

/-- SarifResult mirrors the anonymous result struct in `parseTrivySARIF`;
`properties = none` models a nil Go map (JSON null or absent field). -/
structure SarifResult where
  level : String := ""
  properties : Option (List (String × Json)) := none

/-- Go decoding of one SARIF result object; a type mismatch anywhere makes
the whole `json.Unmarshal` in the source return an error. -/
def decodeSarifResult : Json → Option SarifResult
  | .null => some {}
  | .obj kvs =>
    (match (match getField kvs "level" with
            | none => some ""
            | some v => goStr v) with
     | none => none
     | some lvl =>
       match getField kvs "properties" with
       | none => some { level := lvl }
       | some Json.null => some { level := lvl }
       | some (Json.obj pkvs) => some { level := lvl, properties := some pkvs }
       | some _ => none)
  | _ => none

/-- Go decoding of one SARIF run object (only its `results` list is read). -/
def decodeSarifRun : Json → Option (List SarifResult)
  | .null => some []
  | .obj kvs =>
    (match getField kvs "results" with
     | none => some []
     | some Json.null => some []
     | some (Json.arr xs) => xs.mapM decodeSarifResult
     | some _ => none)
  | _ => none

/-- Go decoding of the SARIF top-level document (only `runs` is read). -/
def decodeSarifDoc : Json → Option (List (List SarifResult))
  | .null => some []
  | .obj kvs =>
    (match getField kvs "runs" with
     | none => some []
     | some Json.null => some []
     | some (Json.arr xs) => xs.mapM decodeSarifRun
     | some _ => none)
  | _ => none

/-- Severity chosen for one SARIF result: first the result-level property map
under key "severity" (an existing key that is not a string blocks the
"Severity" fallback, exactly as the Go `if v, ok := ...; ok { ... } else if`
does), then "Severity", both lower-cased; if that leaves the empty string,
derive from the `level` field (error→high, warning→medium, note→low). -/
def sarifSeverity (r : SarifResult) : String :=
  let sev :=
    match r.properties with
    | none => ""
    | some props =>
      match getField props "severity" with
      | some (Json.str s) => lowerStr s
      | some _ => ""
      | none =>
        match getField props "Severity" with
        | some (Json.str s) => lowerStr s
        | some _ => ""
        | none => ""
  if sev = "" then
    let lvl := lowerStr r.level
    if lvl = "error" then "high"
    else if lvl = "warning" then "medium"
    else if lvl = "note" then "low"
    else ""
  else sev

/-- One step of the SARIF result loop: bucket the chosen severity (unmapped
values hit no bucket) and always increment the total. -/
def sarifStep (c : SeverityCounts) (r : SarifResult) : SeverityCounts :=
  let sev := sarifSeverity r
  let c :=
    if sev = "critical" then { c with critical := c.critical + 1 }
    else if sev = "high" then { c with high := c.high + 1 }
    else if sev = "medium" then { c with medium := c.medium + 1 }
    else if sev = "low" then { c with low := c.low + 1 }
    else c
  { c with total := c.total + 1 }

/-- Counting loop of `parseTrivySARIF` over runs and results. -/
def sarifCounts (doc : List (List SarifResult)) : SeverityCounts :=
  doc.foldl (fun c run => run.foldl sarifStep c) {}

/-- Go decoding of the gitleaks artifact into `[]map[string]any`: the
document must be a JSON array (or null, giving a nil slice) whose elements
are objects (or null, giving nil maps); only the length is used. -/
def decodeGitleaksLen : Json → Option Nat
  | .null => some 0
  | .arr xs =>
    if xs.all (fun j => match j with
                        | .obj _ => true
                        | .null => true
                        | _ => false)
    then some xs.length else none
  | _ => none

/-- Occurrence of `needle` as a contiguous run inside `hay`. -/
def containsSub (needle : List Char) : List Char → Bool
  | [] => needle.isEmpty
  | c :: rest => needle.isPrefixOf (c :: rest) || containsSub needle rest

/-- Go `strings.Contains`. -/
def goContains (s sub : String) : Bool :=
  containsSub sub.toList s.toList

/-- One step of the sqlmap `results` loop: a sub-object's own
`vulnerabilities` array (when it is an array) contributes its length to
high/total and skips the status check; otherwise a string `status` field
containing "possible" or "vulnerable" (case-insensitively) contributes one
to high/total.  Non-object items are ignored. -/
def sqlmapResultStep (c : SeverityCounts) (it : Json) : SeverityCounts :=
  match it with
  | .obj m =>
    (match getField m "vulnerabilities" with
     | some (Json.arr vs) => { c with high := c.high + vs.length, total := c.total + vs.length }
     | _ =>
       match getField m "status" with
       | some (Json.str st) =>
         let s := lowerStr st
         if goContains s "possible" || goContains s "vulnerable" then
           { c with high := c.high + 1, total := c.total + 1 }
         else c
       | _ => c)
  | _ => c

/-- Best-effort extraction of `parseSQLMapJSON` over the decoded top-level
object: a top-level `vulnerabilities` array contributes its length to
high/total, then each item of a top-level `results` array is scanned. -/
def sqlmapCounts (kvs : List (String × Json)) : SeverityCounts :=
  let c : SeverityCounts := {}
  let c :=
    match getField kvs "vulnerabilities" with
    | some (Json.arr xs) => { c with high := c.high + xs.length, total := c.total + xs.length }
    | _ => c
  match getField kvs "results" with
  | some (Json.arr xs) => xs.foldl sqlmapResultStep c
  | _ => c

/-!  parseZAPHTML (analyst.go): the file is lower-cased and scanned with the
regular expressions

* primary: `risk\s*:?\s*high|medium|low` and `risk\s*:?\s*(informational|info)`
  (counted with `FindAllStringIndex`),
* fallback (only when the primary total is zero):
  `class\s*=\s*"(?:risk|severity)-(high|medium|low|informational|info)"`
  and `risk\s*level\s*:?\s*(high|medium|low|informational|info)`
  (iterated with `FindAllStringSubmatch`, both accumulated into one count).

The patterns are fixed, so they are embedded as direct matchers on the
character list.  For every one of these patterns a match is the literal
`risk`/`class` head followed by separator characters and a level word, and
none of those tail characters can begin another match of the same pattern,
so two matches never overlap and Go's non-overlapping `FindAll` count equals
the number of positions at which a match starts, which is what
`countMatches`/`foldMatches` compute. -/

/-- RE2 `\s` character class: `[\t\n\f\r ]`. -/
def isWS (c : Char) : Bool :=
  c = ' ' || c = '\t' || c = '\n' || c = '\r' || c.toNat = 12

/-- Greedy `\s*`. -/
def dropWS : List Char → List Char
  | [] => []
  | c :: rest => if isWS c then dropWS rest else c :: rest

/-- Separator `\s*:?\s*`.  The following literal starts with a letter, so the
greedy reading is equivalent to the regex's nondeterministic one. -/
def afterRiskSep (cs : List Char) : List Char :=
  match dropWS cs with
  | ':' :: rest => dropWS rest
  | cs' => cs'

/-- Literal match at the head of the character list. -/
def litAt (lit : String) (cs : List Char) : Bool :=
  lit.toList.isPrefixOf cs

/-- Matcher for `risk\s*:?\s*high` at the head of the list. -/
def riskHighAt (cs : List Char) : Bool :=
  litAt "risk" cs && litAt "high" (afterRiskSep (cs.drop 4))

/-- Matcher for `risk\s*:?\s*medium` at the head of the list. -/
def riskMedAt (cs : List Char) : Bool :=
  litAt "risk" cs && litAt "medium" (afterRiskSep (cs.drop 4))

/-- Matcher for `risk\s*:?\s*low` at the head of the list. -/
def riskLowAt (cs : List Char) : Bool :=
  litAt "risk" cs && litAt "low" (afterRiskSep (cs.drop 4))

/-- Matcher for `risk\s*:?\s*(informational|info)` at the head of the list. -/
def riskInfoAt (cs : List Char) : Bool :=
  litAt "risk" cs &&
    (litAt "informational" (afterRiskSep (cs.drop 4)) ||
     litAt "info" (afterRiskSep (cs.drop 4)))

/-- Number of positions at which the matcher fires; for the patterns above
this equals Go's non-overlapping `FindAll` count (see the section comment). -/
def countMatches (p : List Char → Bool) : List Char → Nat
  | [] => 0
  | cs@(_ :: rest) => (if p cs then 1 else 0) + countMatches p rest

/-- Alternation `(high|medium|low|informational|info)` at the head of the
list with no continuation after the group, first alternative wins. -/
def levelWordAt (cs : List Char) : Option String :=
  if litAt "high" cs then some "high"
  else if litAt "medium" cs then some "medium"
  else if litAt "low" cs then some "low"
  else if litAt "informational" cs then some "informational"
  else if litAt "info" cs then some "info"
  else none

/-- Alternation `(high|medium|low|informational|info)` that must be followed
by a closing double quote (the continuation of the class regex); an
alternative only wins if the quote also matches, as in leftmost-first
regex matching. -/
def levelWordQuoteAt (cs : List Char) : Option String :=
  if litAt "high\"" cs then some "high"
  else if litAt "medium\"" cs then some "medium"
  else if litAt "low\"" cs then some "low"
  else if litAt "informational\"" cs then some "informational"
  else if litAt "info\"" cs then some "info"
  else none

/-- Matcher for
`class\s*=\s*"(?:risk|severity)-(high|medium|low|informational|info)"`
at the head of the list, returning the captured level. -/
def classMarkerAt (cs : List Char) : Option String :=
  if litAt "class" cs then
    match dropWS (cs.drop 5) with
    | '=' :: t1 =>
      (match dropWS t1 with
       | '"' :: t3 =>
         if litAt "risk-" t3 then levelWordQuoteAt (t3.drop 5)
         else if litAt "severity-" t3 then levelWordQuoteAt (t3.drop 9)
         else none
       | _ => none)
    | _ => none
  else none

/-- Matcher for `risk\s*level\s*:?\s*(high|medium|low|informational|info)`
at the head of the list, returning the captured level. -/
def riskLevelAt (cs : List Char) : Option String :=
  if litAt "risk" cs then
    let t := dropWS (cs.drop 4)
    if litAt "level" t then levelWordAt (afterRiskSep (t.drop 5))
    else none
  else none

/-- Bucketing of a captured fallback level, as in the two Go `switch m[1]`
statements: high→high, medium→medium, low/informational/info→low. -/
def bumpLevel (c : SeverityCounts) (lvl : String) : SeverityCounts :=
  if lvl = "high" then { c with high := c.high + 1 }
  else if lvl = "medium" then { c with medium := c.medium + 1 }
  else if lvl = "low" ∨ lvl = "informational" ∨ lvl = "info" then
    { c with low := c.low + 1 }
  else c

/-- Accumulation of one capturing matcher over every position of the text
(the `for _, m := range rx.FindAllStringSubmatch(s, -1)` loops). -/
def foldMatches (p : List Char → Option String) (c : SeverityCounts) :
    List Char → SeverityCounts
  | [] => c
  | cs@(_ :: rest) =>
    foldMatches p (match p cs with | some lvl => bumpLevel c lvl | none => c) rest

/-- Primary ZAP heuristic: counts of the `risk: {level}` labels, with
informational/info folded into low and the total defined as the bucket sum. -/
def zapPrimary (cs : List Char) : SeverityCounts :=
  let hi := countMatches riskHighAt cs
  let med := countMatches riskMedAt cs
  let low := countMatches riskLowAt cs
  let info := countMatches riskInfoAt cs
  { high := hi, medium := med, low := low + info, total := hi + med + (low + info) }

/-- Fallback ZAP heuristic as written in the source: one accumulator `f`
receives first every class-attribute marker, then every textual
`risk level: {level}` occurrence, and its total is the final bucket sum. -/
def zapFallback (cs : List Char) : SeverityCounts :=
  let f := foldMatches classMarkerAt {} cs
  let f := foldMatches riskLevelAt f cs
  { f with total := f.high + f.medium + f.low }

/-- Counting logic of `parseZAPHTML` on the artifact text: lower-case the
document, apply the primary heuristic, and when its total is zero return
the fallback counts if their total is positive. -/
def zapCountsOf (s : String) : SeverityCounts :=
  let cs := (lowerStr s).toList
  let c := zapPrimary cs
  if c.total = 0 then
    let f := zapFallback cs
    if f.total > 0 then f else c
  else c

/-!  ParseSeverityCounts (analyst.go).  An artifact on disk is modelled as
either unreadable (the `os.Open`/`os.ReadFile` calls fail) or readable with
three views of the same bytes: the raw text (used by the HTML parser), the
bytes as one JSON document (`some j` exactly when `json.Unmarshal` of the
whole file succeeds with value `j`), and the bytes split into lines (used by
the line-delimited parser).  Each parser consumes the view the Go code
builds; errors are modelled as `Except.error ()`, and every Go error path
returns the zero `SeverityCounts{}` alongside the error, which callers that
discard the error observe. -/

/-- FileView carries the three views of a readable artifact's bytes. -/
structure FileView where
  text : String := ""
  asJson : Option Json := none
  asLines : List RawLine := []

/-- Artifact models the artifact file handed to a parser. -/
inductive Artifact where
  | unreadable
  | readable (v : FileView)

/-- Line-delimited JSON parser (`parseNucleiJSONL`). -/
def parseNucleiJSONL : Artifact → Except Unit SeverityCounts
  | .unreadable => .error ()
  | .readable v => .ok (nucleiCounts v.asLines)

/-- Structured vulnerability report parser (`parseTrivySARIF`). -/
def parseTrivySARIF : Artifact → Except Unit SeverityCounts
  | .unreadable => .error ()
  | .readable v =>
    match v.asJson with
    | none => .error ()
    | some j =>
      match decodeSarifDoc j with
      | none => .error ()
      | some doc => .ok (sarifCounts doc)

/-- Flat JSON array parser (`parseGitleaksJSON`). -/
def parseGitleaksJSON : Artifact → Except Unit SeverityCounts
  | .unreadable => .error ()
  | .readable v =>
    match v.asJson with
    | none => .error ()
    | some j =>
      match decodeGitleaksLen j with
      | none => .error ()
      | some n => .ok { total := n }

/-- Generic JSON object parser (`parseSQLMapJSON`); a JSON null decodes into
a nil Go map, on which every lookup misses. -/
def parseSQLMapJSON : Artifact → Except Unit SeverityCounts
  | .unreadable => .error ()
  | .readable v =>
    match v.asJson with
    | none => .error ()
    | some Json.null => .ok (sqlmapCounts [])
    | some (Json.obj kvs) => .ok (sqlmapCounts kvs)
    | some _ => .error ()

/-- Rendered HTML report parser (`parseZAPHTML`). -/
def parseZAPHTML : Artifact → Except Unit SeverityCounts
  | .unreadable => .error ()
  | .readable v => .ok (zapCountsOf v.text)

/-- Dispatch of `ParseSeverityCounts` by tool variant; an unrecognized tool
variant yields the zero count without error and without touching the file. -/
def ParseSeverityCounts (tool : Tool) (a : Artifact) : Except Unit SeverityCounts :=
  if tool = ToolNuclei then parseNucleiJSONL a
  else if tool = ToolTrivy then parseTrivySARIF a
  else if tool = ToolGitleaks then parseGitleaksJSON a
  else if tool = ToolSQLMap then parseSQLMapJSON a
  else if tool = ToolZAP then parseZAPHTML a
  else .ok {}

/-!  Runner.Run (internal/infra/executor/docker/runner.go).  The environment
the subprocess machinery provides — whether `os.MkdirAll` succeeds, what
`cmd.CombinedOutput` reports, whether the artifact file exists afterwards and
what it contains — is passed in explicitly as a `RunEnv`; the observable
events `Run` causes on that environment are returned as `RunEffects`. -/

/-- RunRequest mirrors the value object in the domain package. -/
structure RunRequest where
  tool : Tool
  mode : String := ""
  image : String := ""
  path : String := ""
  target : String := ""

/-- RunResult mirrors the value object in the domain package
(`ExitCode int` as `Int` because `ExitCode()` is -1 for a signalled
process, `DurationMS int64` as `Int`). -/
structure RunResult where
  counts : SeverityCounts
  localArtifactPath : String
  rawFormat : String
  exitCode : Int
  durationMS : Int
deriving DecidableEq, Repr

/-- ProcErr is the outcome of `cmd.CombinedOutput()`: no error (exit 0), an
`*exec.ExitError` carrying an exit code, or any other error (spawn failure,
binary not found), for which the Go code leaves `exitCode` at 0. -/
inductive ProcErr where
  | ok
  | exited (code : Int)
  | failed
deriving DecidableEq, Repr

/-- RunEnv supplies everything the runner observes from the outside world in
one invocation. -/
structure RunEnv where
  /-- Whether `./temp` already exists before the call. -/
  tempDirExistsBefore : Bool := true
  /-- Whether `os.MkdirAll("./temp", 0755)` fails. -/
  mkdirTempFails : Bool := false
  /-- Whether `filepath.Abs` fails (ZAP branch only). -/
  zapAbsFails : Bool := false
  /-- Whether creating the per-invocation ZAP home directory fails. -/
  zapMkdirFails : Bool := false
  /-- Value of `time.Now().UnixNano()` used in the artifact filename. -/
  nano : Nat := 0
  /-- Outcome of `cmd.CombinedOutput()`. -/
  procErr : ProcErr := .ok
  /-- Elapsed milliseconds reported by `time.Since`. -/
  durationMS : Int := 0
  /-- Whether `os.Stat(artifactPath)` finds the artifact file. -/
  artifactOnDisk : Bool := true
  /-- Content of the artifact file as seen by `ParseSeverityCounts`. -/
  artifact : Artifact := .unreadable

/-- RunEffects records the externally visible events of one `Run` call. -/
structure RunEffects where
  /-- Whether `./temp` exists when `Run` returns. -/
  tempDirExistsAfter : Bool
  /-- Whether execution of the tool subprocess was ever attempted
  (`cmd.CombinedOutput()` reached). -/
  processStarted : Bool
  /-- Whether the per-invocation ZAP home directory was created. -/
  zapHomeCreated : Bool := false
  /-- Whether the deferred removal of the ZAP home directory ran. -/
  zapHomeRemoved : Bool := false
deriving DecidableEq, Repr

/-- Exit code the Go code derives from the process error. -/
def goExitCode : ProcErr → Int
  | .ok => 0
  | .exited c => c
  | .failed => 0

/-- Findings-not-failure test from runner.go: trivy exit 1, zap exit 2 or
nuclei exit 1 mean findings were reported, not a tool failure. -/
def isFindingsExit (tool : Tool) (code : Int) : Bool :=
  (tool = ToolTrivy && code = 1) ||
  (tool = ToolZAP && code = 2) ||
  (tool = ToolNuclei && code = 1)

/-- Shared tail of `Run` after the per-tool command has been built: execute
the subprocess, classify the exit, verify the artifact file exists, and parse
severity counts with the parse error discarded (`counts, _ := ...`, so an
error leaves the zero `SeverityCounts{}` in `counts`). -/
def runExecute (req : RunRequest) (env : RunEnv) (artifactPath rawFormat : String)
    (effects : RunEffects) : Except Unit RunResult × RunEffects :=
  let effects := { effects with processStarted := true }
  let exitCode := goExitCode env.procErr
  if env.procErr ≠ ProcErr.ok ∧ ¬ isFindingsExit req.tool exitCode then
    (.error (), effects)
  else if ¬ env.artifactOnDisk then
    (.error (), effects)
  else
    let counts :=
      match ParseSeverityCounts req.tool env.artifact with
      | .ok c => c
      | .error _ => {}
    (.ok { counts := counts, localArtifactPath := artifactPath,
           rawFormat := rawFormat, exitCode := exitCode,
           durationMS := env.durationMS }, effects)

/-- Run mirrors `Runner.Run`: ensure `./temp` exists, build the per-tool
command and artifact filename (ZAP additionally provisions a per-invocation
home directory whose removal is deferred), execute, classify the exit code,
verify the artifact file and parse it. An unsupported tool variant is
rejected by the `default` switch arm — but only after the `./temp` directory
has already been ensured. -/
def Run (req : RunRequest) (env : RunEnv) : Except Unit RunResult × RunEffects :=
  if env.mkdirTempFails then
    (.error (), { tempDirExistsAfter := env.tempDirExistsBefore, processStarted := false })
  else
    let effects : RunEffects := { tempDirExistsAfter := true, processStarted := false }
    let base := "temp/" ++ req.tool ++ "-" ++ toString env.nano
    if req.tool = ToolSQLMap then
      runExecute req env (base ++ ".json") "json" effects
    else if req.tool = ToolTrivy then
      runExecute req env (base ++ ".sarif") "sarif" effects
    else if req.tool = ToolGitleaks then
      runExecute req env (base ++ ".json") "json" effects
    else if req.tool = ToolZAP then
      if env.zapAbsFails then (.error (), effects)
      else if env.zapMkdirFails then (.error (), effects)
      else
        let effects := { effects with zapHomeCreated := true, zapHomeRemoved := true }
        runExecute req env (base ++ ".html") "html" effects
    else if req.tool = ToolNuclei then
      runExecute req env (base ++ ".jsonl") "json" effects
    else
      (.error (), effects)

/-!  Scan entity, MySQL repository and orchestration service.  The persisted
table `security_scans` (primary key `id`) is modelled as a list of rows; the
row type carries exactly the columns the repository reads and writes (there
is no `path` or `metadata` column — `Save` and `Get` never touch those entity
fields).  `Save` is the INSERT … ON DUPLICATE KEY UPDATE upsert; on conflict
it updates only status, the five count columns, artifact_url, raw_format and
duration_ms.  `UpdateStatus` has no id parameter: it updates the status of
the tenant's most recently triggered row (`ORDER BY triggered_at DESC LIMIT
1`); when several rows tie for the maximal timestamp MySQL picks an
unspecified one, modelled here as the first in list order (the theorems below
only use it under a unique maximum, where the choice is irrelevant). -/

/-- Scan mirrors the aggregate root in entity.go (the `Metadata any` field is
omitted: it is never read or persisted by the modelled operations). -/
structure Scan where
  id : String
  tenantId : String
  triggeredAt : Int
  tool : Tool
  target : String
  image : String
  path : String
  status : Status
  counts : SeverityCounts
  artifactURL : String
  rawFormat : String
  durationMS : Int
  source : String
  commitSHA : String
  branch : String

/-- DBRow is one persisted row of `security_scans`. -/
structure DBRow where
  id : String
  tenantId : String
  triggeredAt : Int
  tool : Tool
  target : String
  image : String
  status : Status
  counts : SeverityCounts
  artifactURL : String
  rawFormat : String
  durationMS : Int
  source : String
  commitSHA : String
  branch : String
deriving DecidableEq, Repr

/-- DB is the state of the `security_scans` table. -/
abbrev DB := List DBRow

/-- Helper from helpers.go: "-" when the input is empty or whitespace
(`strings.TrimSpace(s) == ""` holds exactly when every character of `s` is
whitespace). -/
def stringOrDash (s : String) : String :=
  if s.toList.all Char.isWhitespace then "-" else s

/-- Save (scan_repo.go): upsert keyed by the primary key `id`.  On conflict
only status, the count columns, artifact_url, raw_format and duration_ms are
rewritten. -/
def repoSave (db : DB) (s : Scan) : DB :=
  let tenant := stringOrDash s.tenantId
  let tool := stringOrDash s.tool
  let status := stringOrDash s.status
  if db.any (fun r => r.id == s.id) then
    db.map (fun r =>
      if r.id == s.id then
        { r with status := status, counts := s.counts, artifactURL := s.artifactURL,
                 rawFormat := s.rawFormat, durationMS := s.durationMS }
      else r)
  else
    db ++ [{ id := s.id, tenantId := tenant, triggeredAt := s.triggeredAt,
             tool := tool, target := s.target, image := s.image, status := status,
             counts := s.counts, artifactURL := s.artifactURL,
             rawFormat := s.rawFormat, durationMS := s.durationMS,
             source := s.source, commitSHA := s.commitSHA, branch := s.branch }]

/-- Maximal `triggered_at` among a tenant's rows. -/
def maxTimeFor : DB → String → Option Int
  | [], _ => none
  | r :: rest, tenant =>
    let tail := maxTimeFor rest tenant
    if r.tenantId == tenant then
      some (match tail with
            | none => r.triggeredAt
            | some t => max r.triggeredAt t)
    else tail

/-- Replacement of the status of the first row satisfying a predicate. -/
def setStatusFirstWhere (p : DBRow → Bool) (st : Status) : DB → DB
  | [] => []
  | r :: rest =>
    if p r then { r with status := st } :: rest
    else r :: setStatusFirstWhere p st rest

/-- UpdateStatus (scan_repo.go): `UPDATE security_scans SET status = ? WHERE
tenant_id = ? ORDER BY triggered_at DESC LIMIT 1` — the status column of the
tenant's most recently triggered row is rewritten; no scan id is involved. -/
def repoUpdateStatus (db : DB) (tenant : String) (st : Status) : DB :=
  match maxTimeFor db tenant with
  | none => db
  | some t =>
    setStatusFirstWhere (fun r => r.tenantId == tenant && r.triggeredAt == t) st db

/-- Get (scan_repo.go): lookup by tenant and id (`LIMIT 1`). -/
def repoGet (db : DB) (tenant : String) (id : String) : Option DBRow :=
  db.find? (fun r => r.tenantId == tenant && r.id == id)

/-- Persisted status of the row with a given id, if that row exists. -/
def statusOfId (db : DB) (id : String) : Option Status :=
  (db.find? (fun r => r.id == id)).map (·.status)

/-- Helper from the service (part of the scans application package):
exit code 0 maps to SUCCESS and every other exit code to FAILED. -/
def statusFromExit (code : Int) : Status :=
  if code = 0 then StatusSuccess else StatusFailed

/-- TriggerScanCommand mirrors the service command (metadata omitted as in
`Scan`). -/
structure TriggerScanCommand where
  tenantID : String
  tool : String
  mode : String := ""
  image : String := ""
  path : String := ""
  target : String := ""
  source : String := ""
  commitSHA : String := ""
  branch : String := ""

/-- TriggerScanResult mirrors the service result value. -/
structure TriggerScanResult where
  id : String
  status : String
  counts : SeverityCounts := {}
  artifactURL : String := ""
  rawFormat : String := ""
  durationMS : Int := 0
deriving DecidableEq, Repr

/-- SvcEnv supplies the external collaborators of one service invocation:
the clock and uuid, the runner's environment, and success or failure of each
repository/artifact-store call. -/
structure SvcEnv where
  now : Int := 0
  uniqueID : String := "u"
  runEnv : RunEnv := {}
  saveInitialFails : Bool := false
  markRunningFails : Bool := false
  updateStatusFails : Bool := false
  uploadFails : Bool := false
  uploadURL : String := ""
  saveFinalFails : Bool := false

/-- SvcOutcome is the returned (result, error) pair together with the final
table state. -/
structure SvcOutcome where
  result : TriggerScanResult
  isErr : Bool
  db : DB

/-- TriggerScan (service): mint `{uuid}-{tool}`, persist an initial RUNNING
row, invoke the runner (on error: UpdateStatus(tenant, ERROR), return the
error), upload-and-cleanup the artifact (on error: return, with no status
write), then upsert the final record with `statusFromExit`.  A failed initial
save returns immediately. -/
def TriggerScan (db : DB) (cmd : TriggerScanCommand) (env : SvcEnv) : SvcOutcome :=
  let id := env.uniqueID ++ "-" ++ cmd.tool
  let initial : Scan :=
    { id := id, tenantId := cmd.tenantID, triggeredAt := env.now, tool := cmd.tool,
      target := cmd.target, image := cmd.image, path := cmd.path,
      status := StatusRunning, counts := {}, artifactURL := "", rawFormat := "",
      durationMS := 0, source := cmd.source, commitSHA := cmd.commitSHA,
      branch := cmd.branch }
  if env.saveInitialFails then
    { result := { id := id, status := StatusError }, isErr := true, db := db }
  else
    let db1 := repoSave db initial
    let runOut := (Run { tool := cmd.tool, mode := cmd.mode, image := cmd.image,
                         path := cmd.path, target := cmd.target } env.runEnv).1
    match runOut with
    | .error _ =>
      let db2 := if env.updateStatusFails then db1
                 else repoUpdateStatus db1 cmd.tenantID StatusError
      { result := { id := id, status := StatusError }, isErr := true, db := db2 }
    | .ok res =>
      if env.uploadFails then
        { result := { id := id, status := StatusError }, isErr := true, db := db1 }
      else
        let scan : Scan :=
          { initial with status := statusFromExit res.exitCode, counts := res.counts,
                         artifactURL := env.uploadURL, rawFormat := res.rawFormat,
                         durationMS := res.durationMS }
        if env.saveFinalFails then
          { result := { id := id, status := scan.status }, isErr := true, db := db1 }
        else
          { result := { id := id, status := scan.status, counts := scan.counts,
                        artifactURL := scan.artifactURL, rawFormat := scan.rawFormat,
                        durationMS := scan.durationMS },
            isErr := false, db := repoSave db1 scan }

/-- RetryScan (service): load the record (not-found is an error), mark the
tenant's latest record RUNNING, re-invoke the runner with the stored
tool/target/image (the Go `existing.Path` is always "" because `Get` does
not read a path column, and mode is deliberately not reconstructed), then
the same upload and final upsert as TriggerScan, preserving the original
identifier, trigger time and provenance. -/
def RetryScan (db : DB) (tenant : String) (id : String) (env : SvcEnv) : SvcOutcome :=
  match repoGet db tenant id with
  | none =>
    { result := { id := "", status := "" }, isErr := true, db := db }
  | some existing =>
    let db1 := if env.markRunningFails then db
               else repoUpdateStatus db tenant StatusRunning
    let runOut := (Run { tool := existing.tool, mode := "", image := existing.image,
                         path := "", target := existing.target } env.runEnv).1
    match runOut with
    | .error _ =>
      let db2 := if env.updateStatusFails then db1
                 else repoUpdateStatus db1 tenant StatusError
      { result := { id := existing.id, status := StatusError }, isErr := true, db := db2 }
    | .ok res =>
      if env.uploadFails then
        { result := { id := existing.id, status := StatusError }, isErr := true, db := db1 }
      else
        let updated : Scan :=
          { id := existing.id, tenantId := tenant, triggeredAt := existing.triggeredAt,
            tool := existing.tool, target := existing.target, image := existing.image,
            path := "", status := statusFromExit res.exitCode, counts := res.counts,
            artifactURL := env.uploadURL, rawFormat := res.rawFormat,
            durationMS := res.durationMS, source := existing.source,
            commitSHA := existing.commitSHA, branch := existing.branch }
        if env.saveFinalFails then
          { result := { id := existing.id, status := updated.status }, isErr := true, db := db1 }
        else
          { result := { id := existing.id, status := updated.status,
                        counts := updated.counts, artifactURL := updated.artifactURL,
                        rawFormat := updated.rawFormat, durationMS := updated.durationMS },
            isErr := false, db := repoSave db1 updated }

/-- Decidable equality of outcomes, used to evaluate closed statements. -/
instance {ε α : Type} [DecidableEq ε] [DecidableEq α] : DecidableEq (Except ε α) :=
  fun a b =>
  match a, b with
  | .error e, .error f =>
    if h : e = f then isTrue (h ▸ rfl) else isFalse (fun hh => h (by injection hh))
  | .error _, .ok _ => isFalse (fun hh => Except.noConfusion hh)
  | .ok _, .error _ => isFalse (fun hh => Except.noConfusion hh)
  | .ok x, .ok y =>
    if h : x = y then isTrue (h ▸ rfl) else isFalse (fun hh => h (by injection hh))

/-- Persisted counts of the row with a given id, if that row exists. -/
def countsOfId (db : DB) (id : String) : Option SeverityCounts :=
  (db.find? (fun r => r.id == id)).map (·.counts)

/-- Boolean success test on a runner outcome. -/
def isOkE (e : Except Unit RunResult) : Bool :=
  match e with
  | .ok _ => true
  | .error _ => false

/-- Modelled from the spec: the exit-code classification table of §4.1 —
vulnerability/image scanner (trivy) 1, web-app scanner (zap) 2, web
vulnerability scanner (nuclei) 1, secret scanner (gitleaks) and
injection-testing scanner (sqlmap) none.  Stated from the spec's words, to
be compared with the runner's behaviour. -/
def findingsExitSpec (tool : Tool) (code : Int) : Bool :=
  if tool = ToolTrivy then code = 1
  else if tool = ToolZAP then code = 2
  else if tool = ToolNuclei then code = 1
  else false

/-- Class-attribute fallback heuristic taken on its own, with its total
defined as its bucket sum. -/
def zapClassOnly (cs : List Char) : SeverityCounts :=
  let f := foldMatches classMarkerAt {} cs
  { f with total := f.high + f.medium + f.low }

/-- Textual `risk level:` fallback heuristic taken on its own, with its
total defined as its bucket sum. -/
def zapLevelOnly (cs : List Char) : SeverityCounts :=
  let f := foldMatches riskLevelAt {} cs
  { f with total := f.high + f.medium + f.low }

/-- Modelled from the spec's words (for comparison with `zapCountsOf`): when
the primary total is zero, "fall back in order to (a) class-attribute
markers, then (b) textual risk-level occurrences, using the first heuristic
that yields a nonzero total". -/
def zapCountsSpecFirstNonzero (s : String) : SeverityCounts :=
  let cs := (lowerStr s).toList
  let c := zapPrimary cs
  if c.total = 0 then
    let a := zapClassOnly cs
    if a.total > 0 then a
    else
      let b := zapLevelOnly cs
      if b.total > 0 then b else c
  else c

/-!  Helper lemmas about the repository table operations. -/

/-- Lookup in an append skips a left part on which the predicate fails. -/
theorem find?_append_none {α} (p : α → Bool) :
    ∀ l1 l2 : List α, (∀ x ∈ l1, p x = false) → (l1 ++ l2).find? p = l2.find? p := by
  intro l1
  induction l1 with
  | nil => intro l2 _; rfl
  | cons a l ih =>
    intro l2 h
    have ha : p a = false := h a (List.mem_cons_self a l)
    simp only [List.cons_append, List.find?, ha]
    exact ih l2 (fun x hx => h x (List.mem_cons_of_mem a hx))

/-- Lookup only depends on the predicate's values on the list. -/
theorem find?_congr {α} (p q : α → Bool) :
    ∀ l : List α, (∀ x ∈ l, p x = q x) → l.find? p = l.find? q := by
  intro l
  induction l with
  | nil => intro _; rfl
  | cons a l ih =>
    intro h
    have ha : p a = q a := h a (List.mem_cons_self a l)
    by_cases hq : q a = true
    · simp only [List.find?, ha, hq]
    · have hq' : q a = false := by revert hq; cases q a <;> simp
      simp only [List.find?, ha, hq']
      exact ih (fun x hx => h x (List.mem_cons_of_mem a hx))

/-- Lookup by id through an id-preserving pointwise update. -/
theorem find?_map_upd (l : DB) (id : String) (f : DBRow → DBRow)
    (hf : ∀ r, (f r).id = r.id) :
    (l.map (fun r => if r.id == id then f r else r)).find? (fun r => r.id == id)
      = (l.find? (fun r => r.id == id)).map f := by
  induction l with
  | nil => rfl
  | cons a l ih =>
    by_cases ha : a.id = id
    · have h1 : (a.id == id) = true := by simpa using ha
      have h2 : ((f a).id == id) = true := by simp [hf a, ha]
      simp only [List.map_cons, List.find?, h1, if_true, h2]
      rfl
    · have h1 : (a.id == id) = false := by simpa using ha
      simp only [List.map_cons, List.find?, h1, Bool.false_eq_true, if_false]
      exact ih

/-- Appending a strictly newer row of the tenant makes it the maximum. -/
theorem maxTimeFor_append_latest (tenant : String) (r : DBRow)
    (hr : r.tenantId = tenant) :
    ∀ db : DB, (∀ x ∈ db, x.tenantId = tenant → x.triggeredAt < r.triggeredAt) →
      maxTimeFor (db ++ [r]) tenant = some r.triggeredAt := by
  intro db
  induction db with
  | nil => intro _; simp [maxTimeFor, hr]
  | cons a l ih =>
    intro h
    have tail := ih (fun x hx => h x (List.mem_cons_of_mem a hx))
    by_cases hat : a.tenantId = tenant
    · have halt : a.triggeredAt < r.triggeredAt := h a (List.mem_cons_self a l) hat
      have hat2 : (a.tenantId == tenant) = true := by simpa using hat
      have hmax : max a.triggeredAt r.triggeredAt = r.triggeredAt :=
        max_eq_right (le_of_lt halt)
      simp only [List.cons_append, maxTimeFor, hat2, if_true, List.append_eq]
      rw [tail]
      simp [hmax]
    · have hat' : (a.tenantId == tenant) = false := by simpa using hat
      simpa [List.cons_append, maxTimeFor, hat'] using tail

/-- Rewriting the status of the first `p`-row commutes with lookup by a
status-blind predicate `q` that agrees with `p` on the list. -/
theorem find?_setStatus (p q : DBRow → Bool) (st : Status)
    (hq : ∀ (x : DBRow), q { x with status := st } = q x) :
    ∀ l : DB, (∀ x ∈ l, p x = q x) →
      (setStatusFirstWhere p st l).find? q
        = (l.find? q).map (fun r => { r with status := st }) := by
  intro l
  induction l with
  | nil => intro _; rfl
  | cons a l ih =>
    intro h
    have ha : p a = q a := h a (List.mem_cons_self a l)
    by_cases hpa : p a = true
    · have hqa : q a = true := by rw [← ha]; exact hpa
      simp only [setStatusFirstWhere, hpa, if_true, List.find?, hq a, hqa]
      rfl
    · have hpa' : p a = false := by revert hpa; cases p a <;> simp
      have hqa : q a = false := by rw [← ha]; exact hpa'
      simp only [setStatusFirstWhere, hpa', Bool.false_eq_true, if_false, List.find?, hqa]
      exact ih (fun x hx => h x (List.mem_cons_of_mem a hx))

/-- Rewriting one row's status does not change any tenant's maximal
trigger time. -/
theorem maxTimeFor_setStatus (p : DBRow → Bool) (st : Status) (tenant : String) :
    ∀ l : DB, maxTimeFor (setStatusFirstWhere p st l) tenant = maxTimeFor l tenant := by
  intro l
  induction l with
  | nil => rfl
  | cons a l ih =>
    by_cases hpa : p a = true
    · simp only [setStatusFirstWhere, hpa, if_true, maxTimeFor]
    · have hpa' : p a = false := by revert hpa; cases p a <;> simp
      simp only [setStatusFirstWhere, hpa', Bool.false_eq_true, if_false, maxTimeFor, ih]

/-- Status-blind properties of every row survive a status rewrite. -/
theorem forall_mem_setStatus {P : DBRow → Prop}
    (hP : ∀ (y : DBRow) (s' : Status), P y → P { y with status := s' })
    (p : DBRow → Bool) (st : Status) :
    ∀ l : DB, (∀ x ∈ l, P x) → ∀ x ∈ setStatusFirstWhere p st l, P x := by
  intro l
  induction l with
  | nil =>
    intro _ x hx
    simp [setStatusFirstWhere] at hx
  | cons a l ih =>
    intro h x hx
    by_cases hpa : p a = true
    · simp only [setStatusFirstWhere, hpa, if_true] at hx
      rcases List.mem_cons.mp hx with h1 | h2
      · rw [h1]; exact hP a st (h a (List.mem_cons_self a l))
      · exact h x (List.mem_cons_of_mem a h2)
    · have hpa' : p a = false := by revert hpa; cases p a <;> simp
      simp only [setStatusFirstWhere, hpa', Bool.false_eq_true, if_false] at hx
      rcases List.mem_cons.mp hx with h1 | h2
      · rw [h1]; exact h a (List.mem_cons_self a l)
      · exact ih (fun y hy => h y (List.mem_cons_of_mem a hy)) x h2

/-- Membership witness of a successful lookup, as an `any` fact. -/
theorem any_of_find? {α} (p : α → Bool) (l : List α) (x : α)
    (h : l.find? p = some x) : l.any p = true :=
  List.any_eq_true.mpr ⟨x, List.mem_of_find?_eq_some h, List.find?_some h⟩

/-- C4: the runner reproduces the exit-code classification table exactly —
for a process that exited with a nonzero code, `Run` proceeds as success
precisely when the table marks that code as findings-not-failure (trivy 1,
zap 2, nuclei 1; gitleaks and sqlmap have no findings code), and errors on
every other nonzero exit.  `findingsExitSpec` is the spec's table. -/
theorem run_exit_code_classification (req : RunRequest) (env : RunEnv) (c : Int)
    (hsup : req.tool = ToolSQLMap ∨ req.tool = ToolTrivy ∨ req.tool = ToolGitleaks ∨
      req.tool = ToolZAP ∨ req.tool = ToolNuclei)
    (hmk : env.mkdirTempFails = false)
    (hza : env.zapAbsFails = false) (hzm : env.zapMkdirFails = false)
    (hart : env.artifactOnDisk = true)
    (hproc : env.procErr = ProcErr.exited c) (hc : c ≠ 0) :
    isOkE (Run req env).1 = findingsExitSpec req.tool c := by
  rcases hsup with h | h | h | h | h <;>
    rw [h] <;>
    simp only [Run, runExecute, findingsExitSpec, isFindingsExit, goExitCode,
      hmk, hza, hzm, hart, hproc, isOkE] <;>
    by_cases hc1 : c = 1 <;> by_cases hc2 : c = 2 <;>
    simp_all [ToolSQLMap, ToolTrivy, ToolGitleaks, ToolZAP, ToolNuclei, isOkE]

/-- Witness for C4 at the concrete input trivy / exit code 1. -/
theorem run_exit_code_classification_witness :
    isOkE (Run { tool := "trivy" } { procErr := ProcErr.exited 1 }).1
      = findingsExitSpec "trivy" 1 :=
  run_exit_code_classification { tool := "trivy" } { procErr := ProcErr.exited 1 } 1
    (Or.inr (Or.inl rfl)) rfl rfl rfl rfl rfl (by decide)

/-- C9 (counterexample): with `./temp` absent beforehand, `Run` on the
unsupported tool "nmap" does return an explicit error with no process
started — but the temp directory has been created by then, a filesystem
side effect preceding the error, contrary to the claim's "no side
effects". -/
theorem run_unsupported_tool_creates_temp_dir_cex :
    (Run { tool := "nmap" } { tempDirExistsBefore := false }).1 = Except.error () ∧
    (Run { tool := "nmap" } { tempDirExistsBefore := false }).2.processStarted = false ∧
    ({ tempDirExistsBefore := false : RunEnv }).tempDirExistsBefore = false ∧
    (Run { tool := "nmap" } { tempDirExistsBefore := false }).2.tempDirExistsAfter = true :=
  ⟨rfl, rfl, rfl, rfl⟩

/-- C9 (amended): an unsupported tool variant is rejected with an explicit
error before any process is started, but only after `os.MkdirAll("./temp")`
has run, so when that call succeeds the `./temp` directory exists on return
even if it did not exist before. -/
theorem run_unsupported_tool_rejected_before_process (req : RunRequest) (env : RunEnv)
    (h1 : req.tool ≠ ToolSQLMap) (h2 : req.tool ≠ ToolTrivy)
    (h3 : req.tool ≠ ToolGitleaks) (h4 : req.tool ≠ ToolZAP)
    (h5 : req.tool ≠ ToolNuclei) (hmk : env.mkdirTempFails = false) :
    (Run req env).1 = Except.error () ∧
    (Run req env).2.processStarted = false ∧
    (Run req env).2.tempDirExistsAfter = true := by
  simp [Run, h1, h2, h3, h4, h5, hmk]

/-- Witness for the amended C9 at the concrete unsupported tool "nmap". -/
theorem run_unsupported_tool_rejected_before_process_witness :
    (Run { tool := "nmap" } { tempDirExistsBefore := false }).1 = Except.error () ∧
    (Run { tool := "nmap" } { tempDirExistsBefore := false }).2.processStarted = false ∧
    (Run { tool := "nmap" } { tempDirExistsBefore := false }).2.tempDirExistsAfter = true :=
  run_unsupported_tool_rejected_before_process { tool := "nmap" }
    { tempDirExistsBefore := false }
    (by decide) (by decide) (by decide) (by decide) (by decide) rfl

/-- C10: when the subprocess outcome is classified as success and the
artifact file exists but `ParseSeverityCounts` fails on it, `Run` still
returns a successful `RunResult` whose counts are the zero value — the
parse error is discarded (`counts, _ := ...`). -/
theorem run_parse_error_discarded (req : RunRequest) (env : RunEnv)
    (hsup : req.tool = ToolSQLMap ∨ req.tool = ToolTrivy ∨ req.tool = ToolGitleaks ∨
      req.tool = ToolZAP ∨ req.tool = ToolNuclei)
    (hmk : env.mkdirTempFails = false)
    (hza : env.zapAbsFails = false) (hzm : env.zapMkdirFails = false)
    (hart : env.artifactOnDisk = true)
    (hclass : env.procErr = ProcErr.ok ∨
      isFindingsExit req.tool (goExitCode env.procErr) = true)
    (hparse : ParseSeverityCounts req.tool env.artifact = Except.error ()) :
    ∃ res, (Run req env).1 = Except.ok res ∧ res.counts = {} := by
  rcases hsup with h | h | h | h | h <;>
    rcases hclass with hcl | hcl <;>
    simp_all [Run, runExecute, ToolSQLMap, ToolTrivy, ToolGitleaks, ToolZAP, ToolNuclei]

/-- Witness for C10: trivy exits 0 but the artifact bytes are not valid
JSON; `Run` succeeds with zero counts. -/
theorem run_parse_error_discarded_witness :
    ∃ res,
      (Run { tool := "trivy" }
        { artifact := Artifact.readable { asJson := none } }).1 = Except.ok res ∧
      res.counts = {} :=
  run_parse_error_discarded { tool := "trivy" }
    { artifact := Artifact.readable { asJson := none } }
    (Or.inr (Or.inl rfl)) rfl rfl rfl rfl (Or.inl rfl) rfl

/-- C1 (the code evaluated at the failing input): a TriggerScan where trivy
exits with code 1 and leaves a present, well-formed SARIF artifact (two
error-level and one warning-level results) runs the whole pipeline, parses
the counts from the artifact — and persists status FAILED, not SUCCESS,
because `statusFromExit` maps every nonzero exit code to FAILED. -/
theorem trigger_trivy_exit1_persists_failed :
    let art : Artifact := Artifact.readable
      { asJson := some (Json.obj [("runs", Json.arr [Json.obj [("results",
          Json.arr [Json.obj [("level", Json.str "error")],
                    Json.obj [("level", Json.str "error")],
                    Json.obj [("level", Json.str "warning")]])]])]) }
    let out := TriggerScan [] { tenantID := "t", tool := "trivy" }
      { runEnv := { procErr := ProcErr.exited 1, artifact := art },
        uploadURL := "https://store/trivy.sarif" }
    ParseSeverityCounts ToolTrivy art = Except.ok ⟨0, 2, 1, 0, 3⟩ ∧
    statusOfId out.db "u-trivy" = some StatusFailed ∧
    countsOfId out.db "u-trivy" = some ⟨0, 2, 1, 0, 3⟩ ∧
    StatusFailed ≠ StatusSuccess := by
  decide

/-- C2 (counterexample): a TriggerScan whose runner succeeds but whose
artifact upload fails returns an error without any further status write, so
the persisted record is left in status RUNNING — not SUCCESS, FAILED or
ERROR — after the operation completes. -/
theorem trigger_upload_failure_leaves_running_cex :
    let out := TriggerScan [] { tenantID := "t", tool := "trivy" }
      { runEnv := { artifact := Artifact.readable { asJson := some Json.null } },
        uploadFails := true }
    out.isErr = true ∧
    statusOfId out.db "u-trivy" = some StatusRunning ∧
    StatusRunning ≠ StatusSuccess ∧ StatusRunning ≠ StatusFailed ∧
    StatusRunning ≠ StatusError := by
  decide

/-- Fixture row for the C3 counterexample: a pre-existing scan of the same
tenant whose trigger time (100) is later than the new scan's (50). -/
def olderRow : DBRow :=
  { id := "old", tenantId := "t", triggeredAt := 100, tool := "trivy",
    target := "", image := "", status := "success", counts := {},
    artifactURL := "", rawFormat := "", durationMS := 0, source := "",
    commitSHA := "", branch := "" }

/-- C3 (counterexample): on a runner error, the ERROR transition is issued
through `UpdateStatus(tenant, status)`, which rewrites the tenant's most
recently triggered row — here a pre-existing row with a later trigger time —
while the newly minted RUNNING record keeps status RUNNING, contradicting
the claim that the new record is the one transitioned to ERROR. -/
theorem trigger_runner_error_marks_latest_row_cex :
    let out := TriggerScan [olderRow] { tenantID := "t", tool := "trivy" }
      { now := 50, runEnv := { procErr := ProcErr.failed } }
    out.isErr = true ∧
    statusOfId out.db "u-trivy" = some StatusRunning ∧
    statusOfId out.db "old" = some StatusError ∧
    StatusRunning ≠ StatusError := by
  decide

/-- C5 (counterexample): on a document with no primary `risk:` labels, one
`class="risk-high"` marker and one textual `risk level: medium`, the parser
returns the combination of both fallback heuristics ({high 1, medium 1,
total 2}), not the result of the first heuristic with a nonzero total
({high 1, total 1}) that the claim describes. -/
theorem zap_fallback_combination_cex :
    parseZAPHTML (Artifact.readable { text := "class=\"risk-high\" risk level: medium" })
      = Except.ok ⟨0, 1, 1, 0, 2⟩ ∧
    zapCountsSpecFirstNonzero "class=\"risk-high\" risk level: medium" = ⟨0, 1, 0, 0, 1⟩ ∧
    (⟨0, 1, 1, 0, 2⟩ : SeverityCounts) ≠ ⟨0, 1, 0, 0, 1⟩ := by
  decide

/-- Associativity of the bucketwise sum. -/
theorem addCounts_assoc (a b c : SeverityCounts) :
    addCounts (addCounts a b) c = addCounts a (addCounts b c) := by
  simp [addCounts, Nat.add_assoc]

/-- Zero is a right identity for the bucketwise sum. -/
theorem addCounts_zero (c : SeverityCounts) : addCounts c {} = c := by
  cases c; simp [addCounts]

/-- Bumping a level is adding the bump of the zero counter. -/
theorem bumpLevel_add (c : SeverityCounts) (lvl : String) :
    bumpLevel c lvl = addCounts c (bumpLevel {} lvl) := by
  unfold bumpLevel
  split_ifs <;> simp [addCounts]

/-- Fold of a capturing matcher from any accumulator is the accumulator plus
the fold from zero. -/
theorem foldMatches_add (p : List Char → Option String) :
    ∀ (cs : List Char) (c : SeverityCounts),
      foldMatches p c cs = addCounts c (foldMatches p {} cs) := by
  intro cs
  induction cs with
  | nil => intro c; exact (addCounts_zero c).symm
  | cons a l ih =>
    intro c
    cases hp : p (a :: l) with
    | none => simp only [foldMatches, hp]; exact ih c
    | some lvl =>
      simp only [foldMatches, hp]
      rw [ih (bumpLevel c lvl), ih (bumpLevel {} lvl), bumpLevel_add c lvl,
        addCounts_assoc]

/-- The fallback accumulator of `parseZAPHTML` equals the bucketwise sum of
the two heuristics taken separately. -/
theorem zapFallback_eq_add (cs : List Char) :
    zapFallback cs = addCounts (zapClassOnly cs) (zapLevelOnly cs) := by
  simp only [zapFallback, zapClassOnly, zapLevelOnly]
  rw [foldMatches_add riskLevelAt cs (foldMatches classMarkerAt {} cs)]
  dsimp only [addCounts]
  simp only [SeverityCounts.mk.injEq]
  exact ⟨trivial, trivial, trivial, trivial, by omega⟩

/-- C5 (amended): when the primary total is zero, the parser falls back to
the two heuristics — class-attribute markers and textual risk-level
occurrences — accumulated together into one count (their bucketwise sum),
returning that combination whenever its total is nonzero and the zero
primary count otherwise; it does not stop at the first heuristic that
yields a nonzero total. -/
theorem zap_fallback_is_combination (s : String)
    (h : (zapPrimary (lowerStr s).toList).total = 0) :
    parseZAPHTML (Artifact.readable { text := s })
      = Except.ok
          (if 0 < (addCounts (zapClassOnly (lowerStr s).toList)
                     (zapLevelOnly (lowerStr s).toList)).total
           then addCounts (zapClassOnly (lowerStr s).toList)
                  (zapLevelOnly (lowerStr s).toList)
           else zapPrimary (lowerStr s).toList) := by
  simp only [parseZAPHTML, zapCountsOf, h, if_pos, ← zapFallback_eq_add]

/-- Witness for the amended C5 at the counterexample document. -/
theorem zap_fallback_is_combination_witness :
    parseZAPHTML (Artifact.readable { text := "class=\"risk-high\" risk level: medium" })
      = Except.ok
          (if 0 < (addCounts (zapClassOnly (lowerStr "class=\"risk-high\" risk level: medium").toList)
                     (zapLevelOnly (lowerStr "class=\"risk-high\" risk level: medium").toList)).total
           then addCounts (zapClassOnly (lowerStr "class=\"risk-high\" risk level: medium").toList)
                  (zapLevelOnly (lowerStr "class=\"risk-high\" risk level: medium").toList)
           else zapPrimary (lowerStr "class=\"risk-high\" risk level: medium").toList) :=
  zap_fallback_is_combination "class=\"risk-high\" risk level: medium" (by decide)

/-- Severity that the line loop observes for one line: `some` of the
lower-cased nested severity exactly when the line is non-empty and decodes,
`none` when the line is skipped. -/
def nucleiLineSev : RawLine → Option String
  | .value j =>
    (match decodeNucleiSeverity j with
     | some s => some (lowerStr s)
     | none => none)
  | _ => none

/-- One nuclei step from any accumulator is the accumulator plus the step
from zero. -/
theorem nucleiStep_add (c : SeverityCounts) (l : RawLine) :
    nucleiStep c l = addCounts c (nucleiStep {} l) := by
  cases l with
  | blank => exact (addCounts_zero c).symm
  | invalid => exact (addCounts_zero c).symm
  | value j =>
    simp only [nucleiStep]
    cases hd : decodeNucleiSeverity j with
    | none => exact (addCounts_zero c).symm
    | some s =>
      dsimp only
      split_ifs <;> simp [addCounts]

/-- The nuclei fold from any accumulator is the accumulator plus the fold
from zero. -/
theorem nucleiCounts_fold_add :
    ∀ (ls : List RawLine) (c : SeverityCounts),
      ls.foldl nucleiStep c = addCounts c (nucleiCounts ls) := by
  intro ls
  induction ls with
  | nil => intro c; exact (addCounts_zero c).symm
  | cons l ls ih =>
    intro c
    simp only [List.foldl_cons, nucleiCounts] at *
    rw [ih (nucleiStep c l), ih (nucleiStep {} l), nucleiStep_add c l, addCounts_assoc]

/-- The step from zero is the indicator vector of the line's observed
severity. -/
theorem nucleiStep_zero_char (l : RawLine) :
    nucleiStep {} l =
      { critical := if nucleiLineSev l = some "critical" then 1 else 0,
        high := if nucleiLineSev l = some "high" then 1 else 0,
        medium := if nucleiLineSev l = some "medium" then 1 else 0,
        low := if nucleiLineSev l = some "low" ∨ nucleiLineSev l = some "info" ∨
                 nucleiLineSev l = some "informational" then 1 else 0,
        total := if (nucleiLineSev l).isSome then 1 else 0 } := by
  cases l with
  | blank => rfl
  | invalid => rfl
  | value j =>
    cases hd : decodeNucleiSeverity j with
    | none => simp [nucleiStep, nucleiLineSev, hd]
    | some s =>
      simp only [nucleiStep, nucleiLineSev, hd]
      split_ifs <;> simp_all

/-- Characterization of the line-delimited parser: buckets count lines by
their observed severity (info/informational folded into low) and the total
counts every line that decodes, recognized severity or not. -/
theorem nucleiCounts_char (ls : List RawLine) :
    nucleiCounts ls =
      { critical := ls.countP (fun l => nucleiLineSev l == some "critical"),
        high := ls.countP (fun l => nucleiLineSev l == some "high"),
        medium := ls.countP (fun l => nucleiLineSev l == some "medium"),
        low := ls.countP (fun l => nucleiLineSev l == some "low" ||
                 nucleiLineSev l == some "info" ||
                 nucleiLineSev l == some "informational"),
        total := ls.countP (fun l => (nucleiLineSev l).isSome) } := by
  induction ls with
  | nil => rfl
  | cons l ls ih =>
    have h1 : nucleiCounts (l :: ls) = addCounts (nucleiStep {} l) (nucleiCounts ls) := by
      simp only [nucleiCounts, List.foldl_cons]
      exact nucleiCounts_fold_add ls (nucleiStep {} l)
    rw [h1, ih, nucleiStep_zero_char]
    simp only [addCounts, List.countP_cons, SeverityCounts.mk.injEq]
    refine ⟨?_, ?_, ?_, ?_, ?_⟩ <;> split_ifs <;> simp_all <;> omega

/-- The six-line fixture of the claim. -/
def nucleiFixture : List RawLine :=
  [RawLine.value (Json.obj [("info", Json.obj [("severity", Json.str "critical")])]),
   RawLine.value (Json.obj [("info", Json.obj [("severity", Json.str "critical")])]),
   RawLine.value (Json.obj [("info", Json.obj [("severity", Json.str "high")])]),
   RawLine.value (Json.obj [("info", Json.obj [("severity", Json.str "high")])]),
   RawLine.value (Json.obj [("info", Json.obj [("severity", Json.str "high")])]),
   RawLine.value (Json.obj [("info", Json.obj [("severity", Json.str "medium")])])]

/-- C6: the line-delimited JSON parser reads non-empty lines, maps the
nested severity directly, folds info/informational into low, and increments
the total once per (decodable) line regardless of whether the severity was
recognized; the 6-line fixture [critical, critical, high, high, high,
medium] parses to {critical 2, high 3, medium 1, low 0, total 6}. -/
theorem nuclei_parser_characterization :
    (∀ ls : List RawLine, nucleiCounts ls =
      { critical := ls.countP (fun l => nucleiLineSev l == some "critical"),
        high := ls.countP (fun l => nucleiLineSev l == some "high"),
        medium := ls.countP (fun l => nucleiLineSev l == some "medium"),
        low := ls.countP (fun l => nucleiLineSev l == some "low" ||
                 nucleiLineSev l == some "info" ||
                 nucleiLineSev l == some "informational"),
        total := ls.countP (fun l => (nucleiLineSev l).isSome) }) ∧
    ParseSeverityCounts ToolNuclei (Artifact.readable { asLines := nucleiFixture })
      = Except.ok ⟨2, 3, 1, 0, 6⟩ :=
  ⟨nucleiCounts_char, by decide⟩

/-- One SARIF step from any accumulator is the accumulator plus the step
from zero. -/
theorem sarifStep_add (c : SeverityCounts) (r : SarifResult) :
    sarifStep c r = addCounts c (sarifStep {} r) := by
  simp only [sarifStep]
  split_ifs <;> simp [addCounts]

/-- The SARIF result fold from any accumulator is the accumulator plus the
fold from zero. -/
theorem sarifFold_add :
    ∀ (rs : List SarifResult) (c : SeverityCounts),
      rs.foldl sarifStep c = addCounts c (rs.foldl sarifStep {}) := by
  intro rs
  induction rs with
  | nil => intro c; exact (addCounts_zero c).symm
  | cons r rs ih =>
    intro c
    simp only [List.foldl_cons]
    rw [ih (sarifStep c r), ih (sarifStep {} r), sarifStep_add c r, addCounts_assoc]

/-- The nested runs/results double fold is the fold over the flattened
result list. -/
theorem sarifCounts_eq_join_fold :
    ∀ (doc : List (List SarifResult)) (c : SeverityCounts),
      doc.foldl (fun c run => run.foldl sarifStep c) c = (doc.flatten).foldl sarifStep c := by
  intro doc
  induction doc with
  | nil => intro c; rfl
  | cons run doc ih =>
    intro c
    simp only [List.foldl_cons, List.flatten_cons, List.foldl_append]
    exact ih _

/-- The step from zero is the indicator vector of the result's chosen
severity; the total always gains one. -/
theorem sarifStep_zero_char (r : SarifResult) :
    sarifStep {} r =
      { critical := if sarifSeverity r = "critical" then 1 else 0,
        high := if sarifSeverity r = "high" then 1 else 0,
        medium := if sarifSeverity r = "medium" then 1 else 0,
        low := if sarifSeverity r = "low" then 1 else 0,
        total := 1 } := by
  simp only [sarifStep]
  split_ifs <;> simp_all

/-- Characterization of the structured-report parser: buckets count results
by the severity chosen via the property map or the level field, unmapped
values hit no bucket, and the total is the number of results. -/
theorem sarifCounts_char (doc : List (List SarifResult)) :
    sarifCounts doc =
      { critical := (doc.flatten).countP (fun r => sarifSeverity r == "critical"),
        high := (doc.flatten).countP (fun r => sarifSeverity r == "high"),
        medium := (doc.flatten).countP (fun r => sarifSeverity r == "medium"),
        low := (doc.flatten).countP (fun r => sarifSeverity r == "low"),
        total := (doc.flatten).length } := by
  have hflat : sarifCounts doc = (doc.flatten).foldl sarifStep {} :=
    sarifCounts_eq_join_fold doc {}
  rw [hflat]
  generalize doc.flatten = rs
  induction rs with
  | nil => rfl
  | cons r rs ih =>
    have h1 : (r :: rs).foldl sarifStep {}
        = addCounts (sarifStep {} r) (rs.foldl sarifStep {}) := by
      simp only [List.foldl_cons]
      exact sarifFold_add rs (sarifStep {} r)
    rw [h1, ih, sarifStep_zero_char]
    simp only [addCounts, List.countP_cons, List.length_cons, SeverityCounts.mk.injEq]
    refine ⟨?_, ?_, ?_, ?_, ?_⟩ <;>
      first
        | omega
        | (split_ifs <;> simp_all <;> omega)

/-- The structured-report fixture of the claim: two error-level and one
warning-level results, no severity property. -/
def sarifFixture : Json :=
  Json.obj [("runs", Json.arr [Json.obj [("results",
    Json.arr [Json.obj [("level", Json.str "error")],
              Json.obj [("level", Json.str "error")],
              Json.obj [("level", Json.str "warning")]])]])]

/-- C7: the structured vulnerability (SARIF) parser chooses the severity
from the result-level property map first (key "severity"/"Severity",
lower-cased; an unchosen/unmapped value still increments the total without
any bucket), else maps level error→high, warning→medium, note→low; the
buckets count results by that chosen severity and the total counts every
result, and the 2-error/1-warning fixture with no severity property parses
to {high 2, medium 1, low 0, total 3}. -/
theorem sarif_parser_characterization :
    (∀ doc : List (List SarifResult), sarifCounts doc =
      { critical := (doc.flatten).countP (fun r => sarifSeverity r == "critical"),
        high := (doc.flatten).countP (fun r => sarifSeverity r == "high"),
        medium := (doc.flatten).countP (fun r => sarifSeverity r == "medium"),
        low := (doc.flatten).countP (fun r => sarifSeverity r == "low"),
        total := (doc.flatten).length }) ∧
    ParseSeverityCounts ToolTrivy (Artifact.readable { asJson := some sarifFixture })
      = Except.ok ⟨0, 2, 1, 0, 3⟩ :=
  ⟨sarifCounts_char, by decide⟩

/-- Sum of the four severity buckets. -/
def bucketSum (c : SeverityCounts) : Nat :=
  c.critical + c.high + c.medium + c.low

/-- Severities the line-delimited parser recognizes (they hit a bucket). -/
def recognizedSev (s : String) : Bool :=
  s == "critical" || s == "high" || s == "medium" || s == "low" ||
    s == "info" || s == "informational"

/-- Severities the structured-report parser maps to a bucket. -/
def mappedSev (s : String) : Bool :=
  s == "critical" || s == "high" || s == "medium" || s == "low"

/-- The line-delimited counts never put more into buckets than into the
total. -/
theorem nuclei_sum_le (ls : List RawLine) :
    bucketSum (nucleiCounts ls) ≤ (nucleiCounts ls).total := by
  rw [nucleiCounts_char]
  dsimp only [bucketSum]
  induction ls with
  | nil => simp
  | cons l ls ih =>
    simp only [List.countP_cons]
    rcases h : nucleiLineSev l with _ | s
    · simpa [h] using ih
    · simp [h]
      split_ifs <;> simp_all <;> omega

/-- The structured-report counts never put more into buckets than into the
total. -/
theorem sarif_sum_le (doc : List (List SarifResult)) :
    bucketSum (sarifCounts doc) ≤ (sarifCounts doc).total := by
  rw [sarifCounts_char]
  dsimp only [bucketSum]
  generalize doc.flatten = rs
  induction rs with
  | nil => simp
  | cons r rs ih =>
    simp only [List.countP_cons, List.length_cons]
    split_ifs <;> simp_all <;> omega

/-- The fallback fold never touches the critical bucket. -/
theorem foldMatches_critical (p : List Char → Option String) :
    ∀ (cs : List Char) (c : SeverityCounts),
      (foldMatches p c cs).critical = c.critical := by
  intro cs
  induction cs with
  | nil => intro c; rfl
  | cons a l ih =>
    intro c
    cases hp : p (a :: l) with
    | none => simp only [foldMatches, hp]; exact ih c
    | some lvl =>
      simp only [foldMatches, hp]
      rw [ih (bumpLevel c lvl)]
      simp only [bumpLevel]
      split_ifs <;> rfl

/-- The HTML heuristic counts have bucket sum exactly equal to the total. -/
theorem zap_sum_eq (s : String) :
    bucketSum (zapCountsOf s) = (zapCountsOf s).total := by
  dsimp only [zapCountsOf, zapPrimary, zapFallback, bucketSum]
  split_ifs <;>
    simp_all [foldMatches_critical] <;> omega

/-- One sqlmap results step preserves the bucket-sum bound. -/
theorem sqlmapResultStep_le (c : SeverityCounts) (it : Json)
    (h : bucketSum c ≤ c.total) :
    bucketSum (sqlmapResultStep c it) ≤ (sqlmapResultStep c it).total := by
  dsimp only [sqlmapResultStep]
  split
  · next m =>
    split
    · next vs _ => dsimp only [bucketSum] at *; omega
    · split
      · next st _ =>
        split_ifs <;> dsimp only [bucketSum] at * <;> omega
      · exact h
  · exact h

/-- The sqlmap results fold preserves the bucket-sum bound. -/
theorem sqlmapFold_le :
    ∀ (xs : List Json) (c : SeverityCounts), bucketSum c ≤ c.total →
      bucketSum (xs.foldl sqlmapResultStep c) ≤ (xs.foldl sqlmapResultStep c).total := by
  intro xs
  induction xs with
  | nil => intro c h; exact h
  | cons x xs ih =>
    intro c h
    simp only [List.foldl_cons]
    exact ih _ (sqlmapResultStep_le c x h)

/-- The best-effort sqlmap counts never put more into buckets than into the
total. -/
theorem sqlmap_sum_le (kvs : List (String × Json)) :
    bucketSum (sqlmapCounts kvs) ≤ (sqlmapCounts kvs).total := by
  dsimp only [sqlmapCounts]
  split
  · apply sqlmapFold_le
    split
    · next xs _ => dsimp only [bucketSum]; omega
    · dsimp only [bucketSum]; omega
  · split
    · next xs _ => dsimp only [bucketSum]; omega
    · dsimp only [bucketSum]; omega

/-- Bucket sums add under the bucketwise sum. -/
theorem addCounts_bucketSum (a b : SeverityCounts) :
    bucketSum (addCounts a b) = bucketSum a + bucketSum b := by
  dsimp [bucketSum, addCounts]; omega

/-- When every decodable line carries a recognized severity the buckets add
up exactly to the total. -/
theorem nuclei_sum_eq :
    ∀ ls : List RawLine,
      (ls.all fun l => match nucleiLineSev l with
        | some s => recognizedSev s
        | none => true) = true →
      bucketSum (nucleiCounts ls) = (nucleiCounts ls).total := by
  intro ls
  induction ls with
  | nil => intro _; rfl
  | cons l ls ih =>
    intro h
    simp only [List.all_cons, Bool.and_eq_true] at h
    obtain ⟨hl, hls⟩ := h
    have h1 : nucleiCounts (l :: ls) = addCounts (nucleiStep {} l) (nucleiCounts ls) := by
      simp only [nucleiCounts, List.foldl_cons]
      exact nucleiCounts_fold_add ls (nucleiStep {} l)
    have hline : bucketSum (nucleiStep {} l) = (nucleiStep {} l).total := by
      rw [nucleiStep_zero_char]
      rcases hsev : nucleiLineSev l with _ | s
      · simp [hsev, bucketSum]
      · rw [hsev] at hl
        simp only [recognizedSev, Bool.or_eq_true, beq_iff_eq] at hl
        dsimp only [bucketSum]
        split_ifs <;> simp_all
    rw [h1, addCounts_bucketSum, ih hls, hline]
    rfl

/-- When every result's chosen severity is mapped the buckets add up exactly
to the total. -/
theorem sarif_sum_eq :
    ∀ doc : List (List SarifResult),
      ((doc.flatten).all fun r => mappedSev (sarifSeverity r)) = true →
      bucketSum (sarifCounts doc) = (sarifCounts doc).total := by
  intro doc
  have hflat : sarifCounts doc = (doc.flatten).foldl sarifStep {} :=
    sarifCounts_eq_join_fold doc {}
  rw [hflat]
  generalize doc.flatten = rs
  induction rs with
  | nil => intro _; rfl
  | cons r rs ih =>
    intro h
    simp only [List.all_cons, Bool.and_eq_true] at h
    obtain ⟨hr, hrs⟩ := h
    have h1 : (r :: rs).foldl sarifStep {}
        = addCounts (sarifStep {} r) (rs.foldl sarifStep {}) := by
      simp only [List.foldl_cons]
      exact sarifFold_add rs (sarifStep {} r)
    have hline : bucketSum (sarifStep {} r) = (sarifStep {} r).total := by
      rw [sarifStep_zero_char]
      simp only [mappedSev, Bool.or_eq_true, beq_iff_eq] at hr
      dsimp only [bucketSum]
      split_ifs <;> simp_all
    rw [h1, addCounts_bucketSum, ih hrs, hline]
    rfl

/-- C8: every successfully parsed `SeverityCounts` satisfies
critical+high+medium+low ≤ total (the buckets are `Nat`s, hence
non-negative by construction); the classifying formats reach equality when
no unclassified entry exists (every decodable line-delimited line carries a
recognized severity; every structured-report result maps to a bucket); and
the occurrence-only secret-scanner format returns zero buckets with total
equal to the array length. -/
theorem severity_counts_invariant :
    (∀ (tool : Tool) (a : Artifact) (c : SeverityCounts),
        ParseSeverityCounts tool a = Except.ok c → bucketSum c ≤ c.total) ∧
    (∀ ls : List RawLine,
        (ls.all fun l => match nucleiLineSev l with
          | some s => recognizedSev s
          | none => true) = true →
        bucketSum (nucleiCounts ls) = (nucleiCounts ls).total) ∧
    (∀ doc : List (List SarifResult),
        ((doc.flatten).all fun r => mappedSev (sarifSeverity r)) = true →
        bucketSum (sarifCounts doc) = (sarifCounts doc).total) ∧
    (∀ (v : FileView) (xs : List Json),
        v.asJson = some (Json.arr xs) →
        (xs.all fun j => match j with
          | Json.obj _ => true
          | Json.null => true
          | _ => false) = true →
        ParseSeverityCounts ToolGitleaks (Artifact.readable v)
          = Except.ok ⟨0, 0, 0, 0, xs.length⟩) := by
  refine ⟨?_, nuclei_sum_eq, sarif_sum_eq, ?_⟩
  · intro tool a c h
    by_cases h1 : tool = ToolNuclei
    · subst h1
      cases a with
      | unreadable => simp [ParseSeverityCounts, parseNucleiJSONL] at h
      | readable v =>
        simp [ParseSeverityCounts, parseNucleiJSONL] at h
        exact h ▸ nuclei_sum_le v.asLines
    · by_cases h2 : tool = ToolTrivy
      · subst h2
        cases a with
        | unreadable =>
          simp [ParseSeverityCounts, parseTrivySARIF, ToolTrivy, ToolNuclei] at h
        | readable v =>
          simp only [ParseSeverityCounts] at h
          rw [if_neg (by simp [ToolTrivy, ToolNuclei])] at h
          simp only [if_true, parseTrivySARIF] at h
          cases hj : v.asJson with
          | none => simp [hj] at h
          | some j =>
            rw [hj] at h
            simp only [] at h
            cases hd : decodeSarifDoc j with
            | none => simp [hd] at h
            | some doc =>
              simp only [hd, Except.ok.injEq] at h
              exact h ▸ sarif_sum_le doc
      · by_cases h3 : tool = ToolGitleaks
        · subst h3
          cases a with
          | unreadable =>
            simp [ParseSeverityCounts, parseGitleaksJSON, ToolGitleaks, ToolNuclei,
              ToolTrivy] at h
          | readable v =>
            simp only [ParseSeverityCounts] at h
            rw [if_neg (by simp [ToolGitleaks, ToolNuclei]),
              if_neg (by simp [ToolGitleaks, ToolTrivy])] at h
            simp only [if_true, parseGitleaksJSON] at h
            cases hj : v.asJson with
            | none => simp [hj] at h
            | some j =>
              rw [hj] at h
              cases hd : decodeGitleaksLen j with
              | none => simp [hd] at h
              | some n =>
                simp only [hd, Except.ok.injEq] at h
                rw [← h]
                dsimp [bucketSum]
                omega
        · by_cases h4 : tool = ToolSQLMap
          · subst h4
            cases a with
            | unreadable =>
              simp [ParseSeverityCounts, parseSQLMapJSON, ToolSQLMap, ToolNuclei,
                ToolTrivy, ToolGitleaks] at h
            | readable v =>
              simp only [ParseSeverityCounts] at h
              rw [if_neg (by simp [ToolSQLMap, ToolNuclei]),
                if_neg (by simp [ToolSQLMap, ToolTrivy]),
                if_neg (by simp [ToolSQLMap, ToolGitleaks])] at h
              simp only [if_true, parseSQLMapJSON] at h
              cases hj : v.asJson with
              | none => simp [hj] at h
              | some j =>
                rw [hj] at h
                cases j with
                | null =>
                  simp only [Except.ok.injEq] at h
                  exact h ▸ sqlmap_sum_le []
                | obj kvs =>
                  simp only [Except.ok.injEq] at h
                  exact h ▸ sqlmap_sum_le kvs
                | bool b => simp at h
                | num n => simp at h
                | str s => simp at h
                | arr xs => simp at h
          · by_cases h5 : tool = ToolZAP
            · subst h5
              cases a with
              | unreadable =>
                simp [ParseSeverityCounts, parseZAPHTML, ToolZAP, ToolNuclei,
                  ToolTrivy, ToolGitleaks, ToolSQLMap] at h
              | readable v =>
                simp only [ParseSeverityCounts] at h
                rw [if_neg (by simp [ToolZAP, ToolNuclei]),
                  if_neg (by simp [ToolZAP, ToolTrivy]),
                  if_neg (by simp [ToolZAP, ToolGitleaks]),
                  if_neg (by simp [ToolZAP, ToolSQLMap])] at h
                simp only [if_true, parseZAPHTML, Except.ok.injEq] at h
                exact h ▸ le_of_eq (zap_sum_eq v.text)
            · simp only [ParseSeverityCounts] at h
              rw [if_neg h1, if_neg h2, if_neg h3, if_neg h4, if_neg h5] at h
              simp only [Except.ok.injEq] at h
              rw [← h]
              dsimp [bucketSum]
              omega
  · intro v xs hv hall
    simp only [ParseSeverityCounts]
    rw [if_neg (by simp [ToolGitleaks, ToolNuclei]),
      if_neg (by simp [ToolGitleaks, ToolTrivy])]
    simp [parseGitleaksJSON, hv, decodeGitleaksLen, hall]

/-- Witness for C8: the occurrence-only format on a two-element array, and
the bucket-sum bound at the resulting counts. -/
theorem severity_counts_invariant_witness :
    ParseSeverityCounts ToolGitleaks
        (Artifact.readable { asJson := some (Json.arr [Json.obj [], Json.null]) })
      = Except.ok ⟨0, 0, 0, 0, 2⟩ ∧
    bucketSum ⟨0, 0, 0, 0, 2⟩ ≤ (⟨0, 0, 0, 0, 2⟩ : SeverityCounts).total ∧
    bucketSum (nucleiCounts nucleiFixture) = (nucleiCounts nucleiFixture).total :=
  ⟨severity_counts_invariant.2.2.2 _ [Json.obj [], Json.null] rfl rfl,
   severity_counts_invariant.1 ToolGitleaks
     (Artifact.readable { asJson := some (Json.arr [Json.obj [], Json.null]) })
     ⟨0, 0, 0, 0, 2⟩
     (severity_counts_invariant.2.2.2 _ [Json.obj [], Json.null] rfl rfl),
   severity_counts_invariant.2.1 nucleiFixture (by decide)⟩

/-- The literal "running" is not blanked by `stringOrDash`. -/
theorem stringOrDash_running : stringOrDash StatusRunning = StatusRunning := by decide

/-- Statuses produced by `statusFromExit` are not blanked by
`stringOrDash`. -/
theorem stringOrDash_statusFromExit (c : Int) :
    stringOrDash (statusFromExit c) = statusFromExit c := by
  unfold statusFromExit
  split_ifs <;> decide

/-- The final status of a fully successful attempt is SUCCESS or FAILED. -/
theorem statusFromExit_cases (c : Int) :
    statusFromExit c = StatusSuccess ∨ statusFromExit c = StatusFailed := by
  unfold statusFromExit
  split_ifs <;> simp

/-- Row inserted for a scan whose id is not yet present. -/
def savedRow (s : Scan) : DBRow :=
  { id := s.id, tenantId := stringOrDash s.tenantId, triggeredAt := s.triggeredAt,
    tool := stringOrDash s.tool, target := s.target, image := s.image,
    status := stringOrDash s.status, counts := s.counts,
    artifactURL := s.artifactURL, rawFormat := s.rawFormat,
    durationMS := s.durationMS, source := s.source, commitSHA := s.commitSHA,
    branch := s.branch }

/-- Saving a scan whose id is not in the table appends one row. -/
theorem repoSave_fresh (db : DB) (s : Scan)
    (h : (db.any fun r => r.id == s.id) = false) :
    repoSave db s = db ++ [savedRow s] := by
  simp only [repoSave, h, Bool.false_eq_true, if_false, savedRow]

/-- Saving a scan whose id is present rewrites the result columns of the
matching rows in place; lookup by that id sees the rewritten row. -/
theorem repoSave_existing_find (db1 : DB) (s : Scan)
    (hmem : (db1.any fun r => r.id == s.id) = true) :
    (repoSave db1 s).find? (fun r => r.id == s.id)
      = (db1.find? (fun r => r.id == s.id)).map (fun r => { r with status := stringOrDash s.status, counts := s.counts, artifactURL := s.artifactURL, rawFormat := s.rawFormat, durationMS := s.durationMS }) := by
  simp only [repoSave, hmem, if_true]
  exact find?_map_upd db1 s.id _ (fun r => rfl)

/-- Lookup of a freshly appended row. -/
theorem find?_append_single (db : DB) (r : DBRow)
    (h : ∀ x ∈ db, (x.id == r.id) = false) :
    (db ++ [r]).find? (fun x => x.id == r.id) = some r := by
  rw [find?_append_none _ db [r] h]
  simp [List.find?]

/-- UpdateStatus on a table whose strictly newest tenant row is a freshly
appended one rewrites exactly that row's status. -/
theorem repoUpdateStatus_append_latest (db : DB) (r : DBRow) (tenant : String)
    (st : Status) (hrt : r.tenantId = tenant)
    (hlat : ∀ x ∈ db, x.tenantId = tenant → x.triggeredAt < r.triggeredAt)
    (hfresh : ∀ x ∈ db, x.id ≠ r.id) :
    (repoUpdateStatus (db ++ [r]) tenant st).find? (fun x => x.id == r.id)
      = some { r with status := st } := by
  have hmax := maxTimeFor_append_latest tenant r hrt db hlat
  simp only [repoUpdateStatus, hmax]
  have hpq : ∀ x ∈ db ++ [r],
      (x.tenantId == tenant && x.triggeredAt == r.triggeredAt) = (x.id == r.id) := by
    intro x hx
    rcases List.mem_append.mp hx with hxdb | hxr
    · have hq : (x.id == r.id) = false := by
        simp only [beq_eq_false_iff_ne, ne_eq]
        exact hfresh x hxdb
      have hp : (x.tenantId == tenant && x.triggeredAt == r.triggeredAt) = false := by
        by_cases ht : x.tenantId = tenant
        · have hlt := hlat x hxdb ht
          have hne : (x.triggeredAt == r.triggeredAt) = false := by
            simp only [beq_eq_false_iff_ne, ne_eq]
            omega
          simp [hne]
        · have : (x.tenantId == tenant) = false := by
            simp only [beq_eq_false_iff_ne, ne_eq]
            exact ht
          simp [this]
      rw [hp, hq]
    · have hx' : x = r := by simpa using hxr
      subst hx'
      simp [hrt]
  rw [find?_setStatus (fun x => x.tenantId == tenant && x.triggeredAt == r.triggeredAt)
    (fun x => x.id == r.id) st (fun x => rfl) _ hpq]
  rw [find?_append_single db r (fun x hx => by
    simp only [beq_eq_false_iff_ne, ne_eq]
    exact hfresh x hx)]
  rfl

/-- Fresh-id hypotheses in `Bool` form. -/
theorem not_any_id (db : DB) (id : String) (hfresh : ∀ r ∈ db, r.id ≠ id) :
    (db.any fun r => r.id == id) = false := by
  rw [List.any_eq_false]
  intro x hx
  simp only [beq_iff_eq]
  exact hfresh x hx

/-- Trigger, runner-error path: with the initial save and the status update
succeeding, a fresh id and the new record strictly newest for its tenant,
the persisted status of the new record ends ERROR and the error is
returned. -/
theorem triggerA (db : DB) (cmd : TriggerScanCommand) (env : SvcEnv)
    (hfresh : ∀ r ∈ db, r.id ≠ env.uniqueID ++ "-" ++ cmd.tool)
    (hten : stringOrDash cmd.tenantID = cmd.tenantID)
    (hlat : ∀ r ∈ db, r.tenantId = cmd.tenantID → r.triggeredAt < env.now)
    (hsi : env.saveInitialFails = false)
    (hus : env.updateStatusFails = false)
    (hrun : (Run { tool := cmd.tool, mode := cmd.mode, image := cmd.image, path := cmd.path, target := cmd.target } env.runEnv).1 = Except.error ()) :
    statusOfId (TriggerScan db cmd env).db (env.uniqueID ++ "-" ++ cmd.tool)
      = some StatusError ∧ (TriggerScan db cmd env).isErr = true := by
  have hany := not_any_id db (env.uniqueID ++ "-" ++ cmd.tool) hfresh
  simp only [TriggerScan, hsi, Bool.false_eq_true, if_false, hrun, hus]
  rw [repoSave_fresh db _ hany]
  constructor
  · have h2 := repoUpdateStatus_append_latest db
      (savedRow { id := env.uniqueID ++ "-" ++ cmd.tool, tenantId := cmd.tenantID, triggeredAt := env.now, tool := cmd.tool, target := cmd.target, image := cmd.image, path := cmd.path, status := StatusRunning, counts := {}, artifactURL := "", rawFormat := "", durationMS := 0, source := cmd.source, commitSHA := cmd.commitSHA, branch := cmd.branch })
      cmd.tenantID StatusError
      (by simpa [savedRow] using hten)
      (by intro x hx hxt; simpa [savedRow] using hlat x hx hxt)
      (by intro x hx; simpa [savedRow] using hfresh x hx)
    unfold statusOfId
    dsimp only [savedRow] at h2 ⊢
    rw [h2]
    rfl
  · trivial

/-- Lookup of a freshly appended row, stated against an explicit id. -/
theorem find?_append_single_id (db : DB) (r : DBRow) (id : String) (hid : r.id = id)
    (h : ∀ x ∈ db, (x.id == id) = false) :
    (db ++ [r]).find? (fun x => x.id == id) = some r := by
  rw [find?_append_none _ db [r] h]
  simp [List.find?, hid]

/-- Upsert lookup stated against an explicit id. -/
theorem repoSave_existing_find_id (db1 : DB) (s : Scan) (id : String) (hid : s.id = id)
    (hmem : (db1.any fun r => r.id == id) = true) :
    (repoSave db1 s).find? (fun r => r.id == id)
      = (db1.find? (fun r => r.id == id)).map (fun r => { r with status := stringOrDash s.status, counts := s.counts, artifactURL := s.artifactURL, rawFormat := s.rawFormat, durationMS := s.durationMS }) := by
  subst hid
  exact repoSave_existing_find db1 s hmem

/-- Fresh-id hypothesis as a pointwise `Bool` fact. -/
theorem id_neq_false (db : DB) (id : String) (hfresh : ∀ r ∈ db, r.id ≠ id) :
    ∀ x ∈ db, (x.id == id) = false := by
  intro x hx
  simp only [beq_eq_false_iff_ne, ne_eq]
  exact hfresh x hx

/-- Trigger, upload-failure path: the service returns the error without any
status write, so the new record keeps its persisted RUNNING status. -/
theorem triggerB (db : DB) (cmd : TriggerScanCommand) (env : SvcEnv) (res : RunResult)
    (hfresh : ∀ r ∈ db, r.id ≠ env.uniqueID ++ "-" ++ cmd.tool)
    (hsi : env.saveInitialFails = false)
    (hup : env.uploadFails = true)
    (hrun : (Run { tool := cmd.tool, mode := cmd.mode, image := cmd.image, path := cmd.path, target := cmd.target } env.runEnv).1 = Except.ok res) :
    statusOfId (TriggerScan db cmd env).db (env.uniqueID ++ "-" ++ cmd.tool)
      = some StatusRunning ∧ (TriggerScan db cmd env).isErr = true := by
  have hany := not_any_id db (env.uniqueID ++ "-" ++ cmd.tool) hfresh
  simp only [TriggerScan, hsi, Bool.false_eq_true, if_false, hrun, hup, if_true]
  rw [repoSave_fresh db _ hany]
  constructor
  · unfold statusOfId
    rw [find?_append_single_id db _ (env.uniqueID ++ "-" ++ cmd.tool)
      (by dsimp [savedRow]) (id_neq_false db _ hfresh)]
    dsimp only [savedRow]
    rw [stringOrDash_running]
    rfl
  · trivial

/-- Trigger, final-persist-failure path: the upsert fails and the service
returns the error, so the new record keeps its persisted RUNNING status. -/
theorem triggerC (db : DB) (cmd : TriggerScanCommand) (env : SvcEnv) (res : RunResult)
    (hfresh : ∀ r ∈ db, r.id ≠ env.uniqueID ++ "-" ++ cmd.tool)
    (hsi : env.saveInitialFails = false)
    (hup : env.uploadFails = false)
    (hsf : env.saveFinalFails = true)
    (hrun : (Run { tool := cmd.tool, mode := cmd.mode, image := cmd.image, path := cmd.path, target := cmd.target } env.runEnv).1 = Except.ok res) :
    statusOfId (TriggerScan db cmd env).db (env.uniqueID ++ "-" ++ cmd.tool)
      = some StatusRunning ∧ (TriggerScan db cmd env).isErr = true := by
  have hany := not_any_id db (env.uniqueID ++ "-" ++ cmd.tool) hfresh
  simp only [TriggerScan, hsi, hup, Bool.false_eq_true, if_false, hrun, hsf, if_true]
  rw [repoSave_fresh db _ hany]
  constructor
  · unfold statusOfId
    rw [find?_append_single_id db _ (env.uniqueID ++ "-" ++ cmd.tool)
      (by dsimp [savedRow]) (id_neq_false db _ hfresh)]
    dsimp only [savedRow]
    rw [stringOrDash_running]
    rfl
  · trivial

/-- Trigger, full-success path: the final upsert rewrites the new record's
status to `statusFromExit` of the runner's exit code and no error is
returned. -/
theorem triggerD (db : DB) (cmd : TriggerScanCommand) (env : SvcEnv) (res : RunResult)
    (hfresh : ∀ r ∈ db, r.id ≠ env.uniqueID ++ "-" ++ cmd.tool)
    (hsi : env.saveInitialFails = false)
    (hup : env.uploadFails = false)
    (hsf : env.saveFinalFails = false)
    (hrun : (Run { tool := cmd.tool, mode := cmd.mode, image := cmd.image, path := cmd.path, target := cmd.target } env.runEnv).1 = Except.ok res) :
    statusOfId (TriggerScan db cmd env).db (env.uniqueID ++ "-" ++ cmd.tool)
      = some (statusFromExit res.exitCode) ∧ (TriggerScan db cmd env).isErr = false := by
  have hany := not_any_id db (env.uniqueID ++ "-" ++ cmd.tool) hfresh
  simp only [TriggerScan, hsi, hup, hsf, Bool.false_eq_true, if_false, hrun]
  rw [repoSave_fresh db _ hany]
  constructor
  · unfold statusOfId
    have hmem : ((db ++ [savedRow { id := env.uniqueID ++ "-" ++ cmd.tool, tenantId := cmd.tenantID, triggeredAt := env.now, tool := cmd.tool, target := cmd.target, image := cmd.image, path := cmd.path, status := StatusRunning, counts := {}, artifactURL := "", rawFormat := "", durationMS := 0, source := cmd.source, commitSHA := cmd.commitSHA, branch := cmd.branch }]).any fun r => r.id == env.uniqueID ++ "-" ++ cmd.tool) = true := by
      rw [List.any_append]
      simp [savedRow]
    rw [repoSave_existing_find_id _ _ (env.uniqueID ++ "-" ++ cmd.tool) rfl hmem]
    rw [find?_append_single_id db _ (env.uniqueID ++ "-" ++ cmd.tool)
      (by dsimp [savedRow]) (id_neq_false db _ hfresh)]
    dsimp only [savedRow]
    rw [stringOrDash_statusFromExit]
    rfl
  · trivial

/-- UpdateStatus rewrites the status of the row found by id when the
tenant's maximal-trigger-time rows are exactly the rows with that id. -/
theorem repoUpdateStatus_find_id (db : DB) (tenant id : String) (t : Int)
    (ex : DBRow) (st : Status)
    (hex : db.find? (fun r => r.id == id) = some ex)
    (hpq : ∀ x ∈ db, (x.tenantId == tenant && x.triggeredAt == t) = (x.id == id))
    (hmax : maxTimeFor db tenant = some t) :
    (repoUpdateStatus db tenant st).find? (fun r => r.id == id)
      = some { ex with status := st } := by
  simp only [repoUpdateStatus, hmax]
  rw [find?_setStatus (fun x => x.tenantId == tenant && x.triggeredAt == t)
    (fun x => x.id == id) st (fun x => rfl) db hpq, hex]
  rfl

/-- The max-row/id coincidence survives an UpdateStatus. -/
theorem repoUpdateStatus_preserves_hpq (db : DB) (tenant id : String) (t : Int)
    (st : Status) (hmax : maxTimeFor db tenant = some t)
    (hpq : ∀ x ∈ db, (x.tenantId == tenant && x.triggeredAt == t) = (x.id == id)) :
    ∀ x ∈ repoUpdateStatus db tenant st,
      (x.tenantId == tenant && x.triggeredAt == t) = (x.id == id) := by
  simp only [repoUpdateStatus, hmax]
  exact forall_mem_setStatus (fun y s' hy => hy) _ st db hpq

/-- A tenant's maximal trigger time survives an UpdateStatus. -/
theorem repoUpdateStatus_preserves_max (db : DB) (tenant : String) (t : Int)
    (st : Status) (hmax : maxTimeFor db tenant = some t) :
    maxTimeFor (repoUpdateStatus db tenant st) tenant = some t := by
  simp only [repoUpdateStatus, hmax]
  rw [maxTimeFor_setStatus]
  exact hmax

/-- A successful Get, when the tenant's max rows coincide with the id rows,
is also the first row with that id. -/
theorem find_by_id_of_repoGet (db : DB) (tenant id : String) (t : Int) (ex : DBRow)
    (hfind : repoGet db tenant id = some ex)
    (hpq : ∀ x ∈ db, (x.tenantId == tenant && x.triggeredAt == t) = (x.id == id)) :
    db.find? (fun r => r.id == id) = some ex := by
  have hcong : ∀ x ∈ db, (x.tenantId == tenant && x.id == id) = (x.id == id) := by
    intro x hx
    by_cases hq : (x.id == id) = true
    · have hp : (x.tenantId == tenant && x.triggeredAt == t) = true := by
        rw [hpq x hx]; exact hq
      rw [Bool.and_eq_true] at hp
      rw [hp.1, hq]
      simp
    · have hq' : (x.id == id) = false := by revert hq; cases (x.id == id) <;> simp
      rw [hq']
      simp
  rw [← find?_congr _ _ db hcong]
  exact hfind

/-- Retry, runner-error path: the record (the tenant's latest, coinciding
with the retried id) is marked RUNNING and then ERROR, and the error is
returned. -/
theorem retryA (db : DB) (tenant id : String) (env : SvcEnv) (ex : DBRow)
    (hfind : repoGet db tenant id = some ex)
    (hpq : ∀ x ∈ db, (x.tenantId == tenant && x.triggeredAt == ex.triggeredAt) = (x.id == id))
    (hmax : maxTimeFor db tenant = some ex.triggeredAt)
    (hmr : env.markRunningFails = false)
    (hus : env.updateStatusFails = false)
    (hrun : (Run { tool := ex.tool, mode := "", image := ex.image, path := "", target := ex.target } env.runEnv).1 = Except.error ()) :
    statusOfId (RetryScan db tenant id env).db id = some StatusError ∧
      (RetryScan db tenant id env).isErr = true := by
  have hex0 := find_by_id_of_repoGet db tenant id ex.triggeredAt ex hfind hpq
  have h1 := repoUpdateStatus_find_id db tenant id ex.triggeredAt ex StatusRunning hex0 hpq hmax
  have hpq1 := repoUpdateStatus_preserves_hpq db tenant id ex.triggeredAt StatusRunning hmax hpq
  have hmax1 := repoUpdateStatus_preserves_max db tenant ex.triggeredAt StatusRunning hmax
  have h2 := repoUpdateStatus_find_id (repoUpdateStatus db tenant StatusRunning) tenant id
    ex.triggeredAt _ StatusError h1 hpq1 hmax1
  simp only [RetryScan, hfind, hmr, Bool.false_eq_true, if_false, hrun, hus]
  constructor
  · unfold statusOfId
    rw [h2]
    rfl
  · trivial

/-- Retry, upload-failure path: the record was re-marked RUNNING and no
further status is written, so it stays RUNNING. -/
theorem retryB (db : DB) (tenant id : String) (env : SvcEnv) (ex : DBRow) (res : RunResult)
    (hfind : repoGet db tenant id = some ex)
    (hpq : ∀ x ∈ db, (x.tenantId == tenant && x.triggeredAt == ex.triggeredAt) = (x.id == id))
    (hmax : maxTimeFor db tenant = some ex.triggeredAt)
    (hmr : env.markRunningFails = false)
    (hup : env.uploadFails = true)
    (hrun : (Run { tool := ex.tool, mode := "", image := ex.image, path := "", target := ex.target } env.runEnv).1 = Except.ok res) :
    statusOfId (RetryScan db tenant id env).db id = some StatusRunning ∧
      (RetryScan db tenant id env).isErr = true := by
  have hex0 := find_by_id_of_repoGet db tenant id ex.triggeredAt ex hfind hpq
  have h1 := repoUpdateStatus_find_id db tenant id ex.triggeredAt ex StatusRunning hex0 hpq hmax
  simp only [RetryScan, hfind, hmr, Bool.false_eq_true, if_false, hrun, hup, if_true]
  constructor
  · unfold statusOfId
    rw [h1]
    rfl
  · trivial

/-- Retry, final-persist-failure path: the upsert fails, so the record stays
RUNNING. -/
theorem retryC (db : DB) (tenant id : String) (env : SvcEnv) (ex : DBRow) (res : RunResult)
    (hfind : repoGet db tenant id = some ex)
    (hpq : ∀ x ∈ db, (x.tenantId == tenant && x.triggeredAt == ex.triggeredAt) = (x.id == id))
    (hmax : maxTimeFor db tenant = some ex.triggeredAt)
    (hmr : env.markRunningFails = false)
    (hup : env.uploadFails = false)
    (hsf : env.saveFinalFails = true)
    (hrun : (Run { tool := ex.tool, mode := "", image := ex.image, path := "", target := ex.target } env.runEnv).1 = Except.ok res) :
    statusOfId (RetryScan db tenant id env).db id = some StatusRunning ∧
      (RetryScan db tenant id env).isErr = true := by
  have hex0 := find_by_id_of_repoGet db tenant id ex.triggeredAt ex hfind hpq
  have h1 := repoUpdateStatus_find_id db tenant id ex.triggeredAt ex StatusRunning hex0 hpq hmax
  simp only [RetryScan, hfind, hmr, hup, Bool.false_eq_true, if_false, hrun, hsf, if_true]
  constructor
  · unfold statusOfId
    rw [h1]
    rfl
  · trivial

/-- Retry, full-success path: the final upsert rewrites the record's status
to `statusFromExit` of the runner's exit code and no error is returned. -/
theorem retryD (db : DB) (tenant id : String) (env : SvcEnv) (ex : DBRow) (res : RunResult)
    (hfind : repoGet db tenant id = some ex)
    (hpq : ∀ x ∈ db, (x.tenantId == tenant && x.triggeredAt == ex.triggeredAt) = (x.id == id))
    (hmax : maxTimeFor db tenant = some ex.triggeredAt)
    (hmr : env.markRunningFails = false)
    (hup : env.uploadFails = false)
    (hsf : env.saveFinalFails = false)
    (hrun : (Run { tool := ex.tool, mode := "", image := ex.image, path := "", target := ex.target } env.runEnv).1 = Except.ok res) :
    statusOfId (RetryScan db tenant id env).db id = some (statusFromExit res.exitCode) ∧
      (RetryScan db tenant id env).isErr = false := by
  have hex0 := find_by_id_of_repoGet db tenant id ex.triggeredAt ex hfind hpq
  have hexid : ex.id = id := by
    have := List.find?_some hex0
    simpa using this
  have h1 := repoUpdateStatus_find_id db tenant id ex.triggeredAt ex StatusRunning hex0 hpq hmax
  have hmem : ((repoUpdateStatus db tenant StatusRunning).any fun r => r.id == id) = true :=
    any_of_find? _ _ _ h1
  simp only [RetryScan, hfind, hmr, hup, hsf, Bool.false_eq_true, if_false, hrun]
  constructor
  · unfold statusOfId
    rw [repoSave_existing_find_id _ _ id hexid hmem, h1]
    dsimp only
    rw [stringOrDash_statusFromExit]
    rfl
  · trivial

/-- C2 (amended): for Trigger and Retry invocations (with the initial
persist and ignored status updates succeeding, and the operated-on record
the tenant's strictly latest), the persisted status ends ERROR on the
runner-error path and SUCCESS or FAILED on the full-success path — but on
artifact-upload failure and on final-persist failure no status is written
and the record is left RUNNING. -/
theorem trigger_retry_final_status_characterization :
    (∀ (db : DB) (cmd : TriggerScanCommand) (env : SvcEnv),
      (∀ r ∈ db, r.id ≠ env.uniqueID ++ "-" ++ cmd.tool) →
      stringOrDash cmd.tenantID = cmd.tenantID →
      (∀ r ∈ db, r.tenantId = cmd.tenantID → r.triggeredAt < env.now) →
      env.saveInitialFails = false →
      env.updateStatusFails = false →
      (((Run { tool := cmd.tool, mode := cmd.mode, image := cmd.image, path := cmd.path, target := cmd.target } env.runEnv).1 = Except.error () →
          statusOfId (TriggerScan db cmd env).db (env.uniqueID ++ "-" ++ cmd.tool) = some StatusError ∧ (TriggerScan db cmd env).isErr = true) ∧
       (∀ res, (Run { tool := cmd.tool, mode := cmd.mode, image := cmd.image, path := cmd.path, target := cmd.target } env.runEnv).1 = Except.ok res → env.uploadFails = true →
          statusOfId (TriggerScan db cmd env).db (env.uniqueID ++ "-" ++ cmd.tool) = some StatusRunning ∧ (TriggerScan db cmd env).isErr = true) ∧
       (∀ res, (Run { tool := cmd.tool, mode := cmd.mode, image := cmd.image, path := cmd.path, target := cmd.target } env.runEnv).1 = Except.ok res → env.uploadFails = false → env.saveFinalFails = true →
          statusOfId (TriggerScan db cmd env).db (env.uniqueID ++ "-" ++ cmd.tool) = some StatusRunning ∧ (TriggerScan db cmd env).isErr = true) ∧
       (∀ res, (Run { tool := cmd.tool, mode := cmd.mode, image := cmd.image, path := cmd.path, target := cmd.target } env.runEnv).1 = Except.ok res → env.uploadFails = false → env.saveFinalFails = false →
          statusOfId (TriggerScan db cmd env).db (env.uniqueID ++ "-" ++ cmd.tool) = some (statusFromExit res.exitCode) ∧
            (statusFromExit res.exitCode = StatusSuccess ∨ statusFromExit res.exitCode = StatusFailed) ∧
            (TriggerScan db cmd env).isErr = false))) ∧
    (∀ (db : DB) (tenant id : String) (env : SvcEnv) (ex : DBRow),
      repoGet db tenant id = some ex →
      (∀ x ∈ db, (x.tenantId == tenant && x.triggeredAt == ex.triggeredAt) = (x.id == id)) →
      maxTimeFor db tenant = some ex.triggeredAt →
      env.markRunningFails = false →
      env.updateStatusFails = false →
      (((Run { tool := ex.tool, mode := "", image := ex.image, path := "", target := ex.target } env.runEnv).1 = Except.error () →
          statusOfId (RetryScan db tenant id env).db id = some StatusError ∧ (RetryScan db tenant id env).isErr = true) ∧
       (∀ res, (Run { tool := ex.tool, mode := "", image := ex.image, path := "", target := ex.target } env.runEnv).1 = Except.ok res → env.uploadFails = true →
          statusOfId (RetryScan db tenant id env).db id = some StatusRunning ∧ (RetryScan db tenant id env).isErr = true) ∧
       (∀ res, (Run { tool := ex.tool, mode := "", image := ex.image, path := "", target := ex.target } env.runEnv).1 = Except.ok res → env.uploadFails = false → env.saveFinalFails = true →
          statusOfId (RetryScan db tenant id env).db id = some StatusRunning ∧ (RetryScan db tenant id env).isErr = true) ∧
       (∀ res, (Run { tool := ex.tool, mode := "", image := ex.image, path := "", target := ex.target } env.runEnv).1 = Except.ok res → env.uploadFails = false → env.saveFinalFails = false →
          statusOfId (RetryScan db tenant id env).db id = some (statusFromExit res.exitCode) ∧
            (statusFromExit res.exitCode = StatusSuccess ∨ statusFromExit res.exitCode = StatusFailed) ∧
            (RetryScan db tenant id env).isErr = false))) := by
  constructor
  · intro db cmd env hfresh hten hlat hsi hus
    refine ⟨fun hrun => triggerA db cmd env hfresh hten hlat hsi hus hrun,
      fun res hrun hup => triggerB db cmd env res hfresh hsi hup hrun,
      fun res hrun hup hsf => triggerC db cmd env res hfresh hsi hup hsf hrun,
      fun res hrun hup hsf => ?_⟩
    obtain ⟨h1, h2⟩ := triggerD db cmd env res hfresh hsi hup hsf hrun
    exact ⟨h1, statusFromExit_cases res.exitCode, h2⟩
  · intro db tenant id env ex hfind hpq hmax hmr hus
    refine ⟨fun hrun => retryA db tenant id env ex hfind hpq hmax hmr hus hrun,
      fun res hrun hup => retryB db tenant id env ex res hfind hpq hmax hmr hup hrun,
      fun res hrun hup hsf => retryC db tenant id env ex res hfind hpq hmax hmr hup hsf hrun,
      fun res hrun hup hsf => ?_⟩
    obtain ⟨h1, h2⟩ := retryD db tenant id env ex res hfind hpq hmax hmr hup hsf hrun
    exact ⟨h1, statusFromExit_cases res.exitCode, h2⟩

/-- Witness for the amended C2: a trigger on an empty table whose runner
fails to spawn ends with the new record persisted as ERROR. -/
theorem trigger_retry_final_status_characterization_witness :
    statusOfId (TriggerScan [] { tenantID := "t", tool := "trivy" } { runEnv := { procErr := ProcErr.failed } }).db ("u" ++ "-" ++ "trivy") = some StatusError ∧
      (TriggerScan [] { tenantID := "t", tool := "trivy" } { runEnv := { procErr := ProcErr.failed } }).isErr = true :=
  (trigger_retry_final_status_characterization.1 []
      { tenantID := "t", tool := "trivy" } { runEnv := { procErr := ProcErr.failed } }
      (by simp) (by decide) (by simp) rfl rfl).1 (by decide)

/-- C3 (amended): in TriggerScan, when the Runner errors, the ERROR
transition is applied by `UpdateStatus(tenant, ERROR)` to the tenant's most
recently triggered record; under the hypotheses that make the newly minted
RUNNING record the tenant's strict latest (and the writes succeed), that
new record is the one transitioned to ERROR, and the error is returned. -/
theorem trigger_runner_error_latest_row_error (db : DB) (cmd : TriggerScanCommand)
    (env : SvcEnv)
    (hfresh : ∀ r ∈ db, r.id ≠ env.uniqueID ++ "-" ++ cmd.tool)
    (hten : stringOrDash cmd.tenantID = cmd.tenantID)
    (hlat : ∀ r ∈ db, r.tenantId = cmd.tenantID → r.triggeredAt < env.now)
    (hsi : env.saveInitialFails = false)
    (hus : env.updateStatusFails = false)
    (hrun : (Run { tool := cmd.tool, mode := cmd.mode, image := cmd.image, path := cmd.path, target := cmd.target } env.runEnv).1 = Except.error ()) :
    statusOfId (TriggerScan db cmd env).db (env.uniqueID ++ "-" ++ cmd.tool)
      = some StatusError ∧ (TriggerScan db cmd env).isErr = true :=
  triggerA db cmd env hfresh hten hlat hsi hus hrun

/-- Witness for the amended C3: a trigger for tenant "t2" whose runner
errors ends with its own (latest) record marked ERROR. -/
theorem trigger_runner_error_latest_row_error_witness :
    statusOfId (TriggerScan [] { tenantID := "t2", tool := "nuclei" } { runEnv := { procErr := ProcErr.failed } }).db ("u" ++ "-" ++ "nuclei") = some StatusError ∧
      (TriggerScan [] { tenantID := "t2", tool := "nuclei" } { runEnv := { procErr := ProcErr.failed } }).isErr = true :=
  trigger_runner_error_latest_row_error []
    { tenantID := "t2", tool := "nuclei" } { runEnv := { procErr := ProcErr.failed } }
    (by simp) (by decide) (by simp) rfl rfl (by decide)

end AutomatonSec
